import Mathlib

/-!
# gcache: conditional caching interceptors for unary gRPC calls

A shallow embedding of the Go package `gcache` (`codec.go`, `store.go`, `redis.go`,
`gcache.go`, `interceptor.go`) and theorems about it.

Conventions of the embedding

* A Go `[]byte` is `GoBytes = Option (List Nat)`: `none` is the nil slice, which the
  code distinguishes from an empty one (`data == nil`).
* A Go `any` holding a request, a reply or a response is a `GoAny`; a pointer target
  that a callee writes through is modelled by returning the updated `GoAny`.
* A Go `error` is `Option GoError` (`none` is `nil`).
* A runtime panic is the `Except.error` branch of `Run`.
* Imported packages (protobuf, the gRPC transport, reflection, the cache backends)
  are parameters: `Lib`, `Invoker`, `Handler`, `ServerDesc`, `Store`, `LRUBackend`,
  `RedisBackend`. The digest of `crypto/sha1` is computed: `SHA1.sum`.
* Every interceptor threads a `World`: the store state, the process-wide
  `responseCache` and a chronological trace of the observable calls it made.
-/

set_option autoImplicit false
set_option maxRecDepth 100000

namespace Gcache

/-! ## Errors and status codes -/

/-- The gRPC status codes of `google.golang.org/grpc/codes`. -/
inductive Code
  | OK | Canceled | Unknown | InvalidArgument | DeadlineExceeded | NotFound
  | AlreadyExists | PermissionDenied | ResourceExhausted | FailedPrecondition
  | Aborted | OutOfRange | Unimplemented | Internal | Unavailable | DataLoss
  | Unauthenticated
deriving DecidableEq, Repr

/-- Go error values: a gRPC status error (`status.Error(code, msg)`), any other
error with a message, and `fmt.Errorf(pfx + ": %w", inner)`. -/
inductive GoError
  | status (code : Code) (msg : String)
  | plain (msg : String)
  | wrap (pfx : String) (inner : GoError)
deriving DecidableEq, Repr

/-- The method `Code.String`. -/
def Code.String : Code → String
  | .OK => "OK" | .Canceled => "Canceled" | .Unknown => "Unknown"
  | .InvalidArgument => "InvalidArgument" | .DeadlineExceeded => "DeadlineExceeded"
  | .NotFound => "NotFound" | .AlreadyExists => "AlreadyExists"
  | .PermissionDenied => "PermissionDenied" | .ResourceExhausted => "ResourceExhausted"
  | .FailedPrecondition => "FailedPrecondition" | .Aborted => "Aborted"
  | .OutOfRange => "OutOfRange" | .Unimplemented => "Unimplemented"
  | .Internal => "Internal" | .Unavailable => "Unavailable" | .DataLoss => "DataLoss"
  | .Unauthenticated => "Unauthenticated"

/-- The method `Error()` of an error value. -/
def GoError.Error : GoError → String
  | .status code msg => "rpc error: code = " ++ code.String ++ " desc = " ++ msg
  | .plain msg => msg
  | .wrap pfx inner => pfx ++ ": " ++ inner.Error

/-- The code `status.Code` finds in a non-nil error: that of a status error, also
when it is wrapped, `Unknown` otherwise. -/
def GoError.code : GoError → Code
  | .status code _ => code
  | .plain _ => Code.Unknown
  | .wrap _ inner => inner.code

/-- The function `status.Code`: `OK` for a nil error. -/
def statusCode : Option GoError → Code
  | none => Code.OK
  | some e => e.code

/-- A runtime panic. -/
structure Panic where
  msg : String
deriving DecidableEq, Repr

/-- Go code that either returns or panics. -/
abbrev Run (α : Type) := Except Panic α

/-- The panic of dereferencing a nil pointer. -/
def nilDeref : Panic := ⟨"runtime error: invalid memory address or nil pointer dereference"⟩

/-! ## Values -/

/-- A Go byte slice; `none` is the nil slice. -/
abbrev GoBytes := Option (List Nat)

/-- A Go `any` as the codec tells values apart: the nil interface, a
`proto.Message`, a `*[]byte` (`none` is the nil pointer, `some b` points at the
slice `b`) and a value of any other type, kept as its `%v` rendering. -/
inductive GoAny (Msg : Type)
  | nil
  | message (m : Msg)
  | bytesPtr (target : Option GoBytes)
  | other (rendering : String)
deriving DecidableEq, Repr

/-- What the code uses of the protobuf library: `proto.Marshal` and
`proto.Unmarshal` (called with non-nil data only; it returns the message as it
leaves it). -/
structure Lib (Msg : Type) where
  protoMarshal : Msg → GoBytes × Option GoError
  protoUnmarshal : List Nat → Msg → Msg × Option GoError

/-! ## codec.go -/

/-- The interface `encoding.Codec` (without `Name`). -/
structure Codec (Msg : Type) where
  Marshal : GoAny Msg → Run (GoBytes × Option GoError)
  Unmarshal : GoBytes → GoAny Msg → Run (GoAny Msg × Option GoError)

/-- The method `RawBytesCodec.Marshal`. -/
def RawBytesCodec.Marshal {Msg : Type} (L : Lib Msg) (v : GoAny Msg) :
    Run (GoBytes × Option GoError) :=
  match v with
  | .nil => .ok (none, none)
  | .message msg => .ok (L.protoMarshal msg)
  | .bytesPtr (some bts) => .ok (bts, none)
  | .bytesPtr none => .error nilDeref
  | .other r =>
    .ok (none, some (.plain ("failed to marshal: " ++ r ++
      " is not type of *[]byte, nor proto.Message")))

/-- The method `RawBytesCodec.Unmarshal`; the first component is the target `v` afterwards. -/
def RawBytesCodec.Unmarshal {Msg : Type} (L : Lib Msg) (data : GoBytes) (v : GoAny Msg) :
    Run (GoAny Msg × Option GoError) :=
  match data, v with
  | none, v => .ok (v, none)
  | some _, .nil => .ok (.nil, none)
  | some d, .message msg => .ok (.message (L.protoUnmarshal d msg).1, (L.protoUnmarshal d msg).2)
  | some d, .bytesPtr (some _) => .ok (.bytesPtr (some (some d)), none)
  | some _, .bytesPtr none => .error nilDeref
  | some _, .other r =>
    .ok (.other r, some (.plain ("failed to unmarshal: " ++ r ++
      " is not type of *[]byte, nor proto.Message")))

/-- The value `RawBytesCodec{}` as an `encoding.Codec`. -/
def RawBytesCodec {Msg : Type} (L : Lib Msg) : Codec Msg where
  Marshal := RawBytesCodec.Marshal L
  Unmarshal := RawBytesCodec.Unmarshal L

/-! ## Metadata and contexts -/

/-- The function `strings.ToLower` on the ASCII keys the code passes. -/
def toLower (s : String) : String := String.mk (s.data.map Char.toLower)

/-- The type `metadata.MD`, a map from lower-case keys to value lists, kept as an
association list whose first match counts. -/
structure MD where
  pairs : List (String × List String)
deriving DecidableEq, Repr

/-- The method `MD.Get`: the values under the lower-cased key, nil when there are none. -/
def MD.Get (md : MD) (k : String) : List String :=
  (md.pairs.lookup (toLower k)).getD []

/-- The method `MD.Set`: it replaces the values under the lower-cased key; no values is a no-op. -/
def MD.Set (md : MD) (k : String) (vals : List String) : MD :=
  if vals.length = 0 then md
  else ⟨(toLower k, vals) :: md.pairs.filter (fun p => p.1 ≠ toLower k)⟩

/-- The part of a `context.Context` the code reads: the incoming and the outgoing
metadata, each absent or present with lower-case keys. -/
structure Ctx where
  incoming : Option MD
  outgoing : Option MD
deriving DecidableEq, Repr

/-- The function `metadata.FromIncomingContext`. -/
def FromIncomingContext (ctx : Ctx) : MD × Bool :=
  match ctx.incoming with
  | some md => (md, true)
  | none => (⟨[]⟩, false)

/-- The function `metadata.FromOutgoingContext`. -/
def FromOutgoingContext (ctx : Ctx) : MD × Bool :=
  match ctx.outgoing with
  | some md => (md, true)
  | none => (⟨[]⟩, false)

/-- The function `metadata.NewOutgoingContext`. -/
def NewOutgoingContext (ctx : Ctx) (md : MD) : Ctx := { ctx with outgoing := some md }

/-! ## gcache.go -/

/-- The function `ETag`: the first `If-None-Match` value of the incoming metadata, or "". -/
def ETag (ctx : Ctx) : String :=
  match FromIncomingContext ctx with
  | (md, true) =>
    match md.Get "If-None-Match" with
    | h0 :: _ => h0
    | [] => ""
  | (_, false) => ""

/-! ## store.go -/

/-- The struct `Entry`. -/
structure Entry where
  Value : GoBytes
  ETag : String
deriving DecidableEq, Repr

/-- The interface `Store` over a backend state `σ`. `Get` is a read: bookkeeping a
backend does on reads (recency, expiry) is not modelled. -/
structure Store (σ : Type) where
  Get : σ → String → Entry × Bool
  Set : σ → String → Entry → σ
  Remove : σ → String → σ

/-- The interface `LRUBackend` over a cache state `β`. -/
structure LRUBackend (β : Type) where
  Add : β → String → Entry → β × Bool
  Get : β → String → Entry × Bool
  Remove : β → String → β × Bool

/-- The function `NewLRU` with the methods of `lruWrapper`. -/
def NewLRU {β : Type} (backend : LRUBackend β) : Store β where
  Get := fun s key => backend.Get s key
  Set := fun s key e => (backend.Add s key e).1
  Remove := fun s key => (backend.Remove s key).1

/-- An unbounded in-memory cache as an `LRUBackend`: an association list, a stand-in
for the hashicorp cache while it is below its capacity. A miss yields the zero
`Entry`. -/
def mapBackend : LRUBackend (List (String × Entry)) where
  Add := fun s key e => ((key, e) :: s.filter (fun p => p.1 ≠ key), false)
  Get := fun s key =>
    match s.lookup key with
    | some e => (e, true)
    | none => (⟨none, ""⟩, false)
  Remove := fun s key => (s.filter (fun p => p.1 ≠ key), (s.lookup key).isSome)

/-! ## redis.go -/

/-- An error of the redis cache client; `isCacheMiss` is
`errors.Is(err, rediscache.ErrCacheMiss)`. -/
structure RedisErr where
  isCacheMiss : Bool
  msg : String
deriving DecidableEq, Repr

/-- The struct `rediscache.Item` as `Set` fills it. -/
structure RedisItem where
  Key : String
  Value : Entry
  TTL : Nat
  SkipLocalCache : Bool
deriving DecidableEq, Repr

/-- The calls made on `*rediscache.Cache` over a backend state `ρ`. `Get` returns
what it left in the zero `Entry` it was handed, and its error. -/
structure RedisBackend (ρ : Type) where
  Get : ρ → String → Entry × Option RedisErr
  Set : ρ → RedisItem → ρ × Option RedisErr
  Delete : ρ → String → ρ × Option RedisErr

/-- The struct `redisStore` (without its logger; warnings are returned). -/
structure redisStore (ρ : Type) where
  backend : RedisBackend ρ
  ttl : Nat
  skipLocalCache : Bool

/-- The method `redisStore.Get`, with the warnings it logs. -/
def redisStore.Get {ρ : Type} (r : redisStore ρ) (s : ρ) (key : String) :
    (Entry × Bool) × List String :=
  match r.backend.Get s key with
  | (e, some err) =>
    if err.isCacheMiss then ((⟨none, ""⟩, false), [])
    else ((e, true), ["gcache: failed to get from redisStore cache"])
  | (e, none) => ((e, true), [])

/-- The method `redisStore.Set`, with the warnings it logs. -/
def redisStore.Set {ρ : Type} (r : redisStore ρ) (s : ρ) (key : String) (e : Entry) :
    ρ × List String :=
  match r.backend.Set s ⟨key, e, r.ttl, r.skipLocalCache⟩ with
  | (s1, some _) => (s1, ["gcache: failed to set to redisStore cache"])
  | (s1, none) => (s1, [])

/-- The method `redisStore.Remove`, with the warnings it logs. -/
def redisStore.Remove {ρ : Type} (r : redisStore ρ) (s : ρ) (key : String) :
    ρ × List String :=
  match r.backend.Delete s key with
  | (s1, some _) => (s1, ["gcache: failed to remove from redisStore cache"])
  | (s1, none) => (s1, [])

/-- The function `NewRedis` with its options applied: the `redisStore` as a `Store`. -/
def NewRedis {ρ : Type} (r : redisStore ρ) : Store ρ where
  Get := fun s key => (r.Get s key).1
  Set := fun s key e => (r.Set s key e).1
  Remove := fun s key => (r.Remove s key).1

/-! ## interceptor.go: the environment -/

/-- The call options the client interceptor tells apart: the two it appends and the
caller's own. -/
inductive CallOption
  | Header
  | ForceCodec
  | user (name : String)
deriving DecidableEq, Repr

/-- What a `grpc.UnaryInvoker` call leaves behind: its error, the reply target as it
leaves it, and the response headers (stored where a `grpc.Header` option points). -/
structure InvokeOutcome (Msg : Type) where
  err : Option GoError
  reply : GoAny Msg
  header : MD

/-- A `grpc.UnaryInvoker`: context, method, request, reply target, options. -/
abbrev Invoker (Msg : Type) :=
  Ctx → String → GoAny Msg → GoAny Msg → List CallOption → InvokeOutcome Msg

/-- A `grpc.UnaryHandler`: context and request to response and error. -/
abbrev Handler (Msg : Type) := Ctx → GoAny Msg → GoAny Msg × Option GoError

/-- What reflection finds on `info.Server`: the name of its type and, for a method
name it has, the value `reflect.New(m.Type.Out(0).Elem()).Interface()`. -/
structure ServerDesc (Msg : Type) where
  typeName : String
  methodOut : String → Option (GoAny Msg)

/-- The struct `grpc.UnaryServerInfo`. -/
structure UnaryServerInfo (Msg : Type) where
  Server : ServerDesc Msg
  FullMethod : String

/-- The observable calls of an interceptor. -/
inductive Event (Msg : Type)
  | storeGet (key : String)
  | storeSet (key : String) (e : Entry)
  | storeRemove (key : String)
  | invoke (ctx : Ctx) (method : String) (req reply : GoAny Msg) (opts : List CallOption)
  | handle (ctx : Ctx) (req : GoAny Msg)
  | warn (msg : String)
deriving DecidableEq, Repr

/-- Whether the event is a `Set` or a `Remove` on the store. -/
def Event.isStoreWrite {Msg : Type} : Event Msg → Bool
  | .storeSet _ _ => true
  | .storeRemove _ => true
  | _ => false

/-- Whether the event is a `Get`, a `Set` or a `Remove` on the store. -/
def Event.isStoreOp {Msg : Type} : Event Msg → Bool
  | .storeGet _ => true
  | .storeSet _ _ => true
  | .storeRemove _ => true
  | _ => false

/-- Whether the event is a call of the real handler. -/
def Event.isHandle {Msg : Type} : Event Msg → Bool
  | .handle _ _ => true
  | _ => false

/-- The mutable surroundings of a call: the store, the package variable
`responseCache` (the response type is kept as the fresh value `reflect.New` makes of
it) and the trace of calls so far, oldest first. -/
structure World (σ Msg : Type) where
  store : σ
  responseCache : List (String × GoAny Msg)
  trace : List (Event Msg)

/-- Appends an event to the trace. -/
def World.log {σ Msg : Type} (w : World σ Msg) (ev : Event Msg) : World σ Msg :=
  { w with trace := w.trace ++ [ev] }

/-- The events of `w1` that came after those of `w`. -/
def World.since {σ Msg : Type} (w1 w : World σ Msg) : List (Event Msg) :=
  w1.trace.drop w.trace.length

/-- The struct `Interceptor` (without its logger; warnings go to the trace). -/
structure Interceptor (σ Msg : Type) where
  store : Store σ
  codec : Codec Msg
  filter : String → Bool

/-- The function `NewInterceptor` with a store given: the codec is `RawBytesCodec`
and the filter `.*` matches every method. -/
def NewInterceptor {σ Msg : Type} (L : Lib Msg) (store : Store σ) : Interceptor σ Msg where
  store := store
  codec := RawBytesCodec L
  filter := fun _ => true

/-! ## crypto/sha1 -/

namespace SHA1

/-- Rotation of a 32-bit word to the left. -/
def rotl (n x : Nat) : Nat := ((x <<< n) ||| (x >>> (32 - n))) % 4294967296

/-- The number a big-endian byte string denotes. -/
def be32 (bs : List Nat) : Nat :=
  bs.foldl (fun acc b => acc * 256 + b % 256) 0

/-- The big-endian bytes of a number, `width` of them. -/
def toBE (width n : Nat) : List Nat :=
  (List.range width).map (fun i => n / 256 ^ (width - 1 - i) % 256)

/-- The padded message: a one bit, zeros up to 56 modulo 64 bytes, the bit length. -/
def pad (msg : List Nat) : List Nat :=
  msg ++ [128] ++ List.replicate ((119 - msg.length % 64) % 64) 0 ++ toBE 8 (8 * msg.length)

/-- The 64-byte blocks of a padded message. -/
def chunks : Nat → List Nat → List (List Nat)
  | 0, _ => []
  | n + 1, l => if l.isEmpty then [] else l.take 64 :: chunks n (l.drop 64)

/-- The sixteen words of a block. -/
def words16 (blk : List Nat) : List Nat :=
  (List.range 16).map (fun i => be32 ((blk.drop (4 * i)).take 4))

/-- The message schedule grown by `n` words, newest word first. -/
def extend : Nat → List Nat → List Nat
  | 0, ws => ws
  | n + 1, ws =>
    extend n (rotl 1 (ws.getD 2 0 ^^^ ws.getD 7 0 ^^^ ws.getD 13 0 ^^^ ws.getD 15 0) :: ws)

/-- The five working words. -/
structure St where
  a : Nat
  b : Nat
  c : Nat
  d : Nat
  e : Nat

/-- One of the eighty rounds, on the round number and its schedule word. -/
def round (s : St) (iw : Nat × Nat) : St :=
  let f := if iw.1 < 20 then (s.b &&& s.c) ||| ((s.b ^^^ 4294967295) &&& s.d)
    else if iw.1 < 40 then s.b ^^^ s.c ^^^ s.d
    else if iw.1 < 60 then (s.b &&& s.c) ||| (s.b &&& s.d) ||| (s.c &&& s.d)
    else s.b ^^^ s.c ^^^ s.d
  let k := if iw.1 < 20 then 1518500249 else if iw.1 < 40 then 1859775393
    else if iw.1 < 60 then 2400959708 else 3395469782
  ⟨(rotl 5 s.a + f + s.e + k + iw.2) % 4294967296, s.a, rotl 30 s.b, s.c, s.d⟩

/-- The compression of one block into the chaining value. -/
def block (h : St) (blk : List Nat) : St :=
  let s := ((List.range 80).zip (extend 64 (words16 blk).reverse).reverse).foldl round h
  ⟨(h.a + s.a) % 4294967296, (h.b + s.b) % 4294967296, (h.c + s.c) % 4294967296,
   (h.d + s.d) % 4294967296, (h.e + s.e) % 4294967296⟩

/-- The function `sha1.Sum`: the 20-byte SHA-1 digest (FIPS 180-4). -/
def sum (msg : List Nat) : List Nat :=
  let s := (chunks (pad msg).length (pad msg)).foldl block
    ⟨1732584193, 4023233417, 2562383102, 271733878, 3285377520⟩
  toBE 4 s.a ++ toBE 4 s.b ++ toBE 4 s.c ++ toBE 4 s.d ++ toBE 4 s.e

end SHA1

/-! ## interceptor.go: helpers -/

/-- One lower-case hexadecimal digit. -/
def hexDigit (n : Nat) : Char :=
  ['0', '1', '2', '3', '4', '5', '6', '7', '8', '9', 'a', 'b', 'c', 'd', 'e', 'f'].getD n '0'

/-- The verb `%x` on a byte slice: two lower-case digits a byte. -/
def hex : List Nat → List Char
  | [] => []
  | b :: bs => hexDigit (b / 16 % 16) :: hexDigit (b % 16) :: hex bs

/-- The function `hash`. -/
def hash (bts : GoBytes) : List Nat := SHA1.sum (bts.getD [])

/-- The method `Interceptor.key`. -/
def Interceptor.key {σ Msg : Type} (c : Interceptor σ Msg) (method : String)
    (req : GoAny Msg) : Run (String × Option GoError) :=
  match c.codec.Marshal req with
  | .error p => .error p
  | .ok (_, some err) => .ok ("", some (.wrap "marshal request" err))
  | .ok (bts, none) => .ok (method ++ "\x7b" ++ String.mk (hex (hash bts)) ++ "\x7d", none)

/-- The function `notChanged`. -/
def notChanged (ctx : Ctx) (err : Option GoError) (inMD : MD) : Bool :=
  match err with
  | none => false
  | some e =>
    if statusCode (some e) ≠ Code.Aborted then false
    else if (FromOutgoingContext ctx).1.Get "if-none-match" ≠ inMD.Get "etag" then false
    else true

/-- The last element of `strings.Split(s, "/")`. -/
def lastSegment (s : String) : String :=
  String.mk (s.data.foldl (fun acc ch => if ch = '/' then [] else acc ++ [ch]) [])

/-- The method `Interceptor.responseType`. -/
def responseType {σ Msg : Type} (w : World σ Msg) (fullMethodName : String)
    (srv : ServerDesc Msg) : (GoAny Msg × Option GoError) × World σ Msg :=
  match w.responseCache.lookup fullMethodName with
  | some v => ((v, none), w)
  | none =>
    match srv.methodOut (lastSegment fullMethodName) with
    | none =>
      ((.nil, some (.plain ("method " ++ lastSegment fullMethodName ++
        " not found in type " ++ srv.typeName))), w)
    | some respTyp =>
      ((respTyp, none), { w with responseCache := (fullMethodName, respTyp) :: w.responseCache })

/-- The method `Interceptor.buildResponse`. -/
def Interceptor.buildResponse {σ Msg : Type} (c : Interceptor σ Msg) (w : World σ Msg)
    (info : UnaryServerInfo Msg) (e : Entry) :
    Run ((GoAny Msg × Option GoError) × World σ Msg) :=
  match responseType w info.FullMethod info.Server with
  | ((_, some err), w1) => .ok ((.nil, some (.wrap "get response type" err)), w1)
  | ((out, none), w1) =>
    match c.codec.Unmarshal e.Value out with
    | .error p => .error p
    | .ok (_, some err) => .ok ((.nil, some (.wrap "unmarshal response" err)), w1)
    | .ok (out1, none) => .ok ((out1, none), w1)

/-! ## interceptor.go: the serve-site interceptor -/

/-- Calls the real handler and records the call. -/
def callHandler {σ Msg : Type} (handler : Handler Msg) (w : World σ Msg) (ctx : Ctx)
    (req : GoAny Msg) : (GoAny Msg × Option GoError) × World σ Msg :=
  (handler ctx req, w.log (.handle ctx req))

/-- The test on the incoming metadata in `UnaryServerInterceptor`:
`len(h) > 0 && h[0] == "no-cache"` for `h := inMD.Get("Cache-Control")`. -/
def noCacheDirective (ctx : Ctx) : Bool :=
  match FromIncomingContext ctx with
  | (inMD, true) =>
    match inMD.Get "Cache-Control" with
    | h0 :: _ => decide (h0 = "no-cache")
    | [] => false
  | (_, false) => false

/-- The end of `UnaryServerInterceptor`, from the call of the handler on: reached on
a miss and after a stored entry failed to build a response. -/
def Interceptor.serverTail {σ Msg : Type} (c : Interceptor σ Msg) (w : World σ Msg)
    (ctx : Ctx) (req : GoAny Msg) (key : String) (handler : Handler Msg) :
    Run ((GoAny Msg × Option GoError) × World σ Msg) :=
  match (callHandler handler w ctx req).1 with
  | (_, some err) => .ok ((.nil, some err), (callHandler handler w ctx req).2)
  | (resp, none) =>
    match c.codec.Marshal resp with
    | .error p => .error p
    | .ok (_, some _) =>
      .ok ((resp, none), (callHandler handler w ctx req).2.log
        (.warn "gcache: failed to marshal response, value won\x27t be cached"))
    | .ok (bts, none) =>
      .ok ((resp, none),
        { (callHandler handler w ctx req).2.log (.storeSet key ⟨bts, ""⟩) with
          store := c.store.Set w.store key ⟨bts, ""⟩ })

/-- The function returned by `Interceptor.UnaryServerInterceptor`: the response and
error it returns, and the world afterwards. -/
def Interceptor.UnaryServerInterceptor {σ Msg : Type} (c : Interceptor σ Msg)
    (w : World σ Msg) (ctx : Ctx) (req : GoAny Msg) (info : UnaryServerInfo Msg)
    (handler : Handler Msg) : Run ((GoAny Msg × Option GoError) × World σ Msg) :=
  if c.filter info.FullMethod = false then .ok (callHandler handler w ctx req)
  else if noCacheDirective ctx = true then .ok (callHandler handler w ctx req)
  else
    match c.key info.FullMethod req with
    | .error p => .error p
    | .ok (_, some _) =>
      .ok (callHandler handler
        (w.log (.warn "gcache: failed to produce a key, skipping cache")) ctx req)
    | .ok (key, none) =>
      match c.store.Get w.store key with
      | (e, true) =>
        match c.buildResponse (w.log (.storeGet key)) info e with
        | .error p => .error p
        | .ok ((resp, none), w1) => .ok ((resp, none), w1)
        | .ok ((_, some _), w1) =>
          c.serverTail
            (w1.log (.warn "gcache: failed to unmarshal response, retrieving from handler"))
            ctx req key handler
      | (_, false) => c.serverTail (w.log (.storeGet key)) ctx req key handler

/-! ## interceptor.go: the call-site interceptor -/

/-- Calls the real invoker and records the call. -/
def callInvoker {σ Msg : Type} (invoker : Invoker Msg) (w : World σ Msg) (ctx : Ctx)
    (method : String) (req reply : GoAny Msg) (opts : List CallOption) :
    InvokeOutcome Msg × World σ Msg :=
  (invoker ctx method req reply opts, w.log (.invoke ctx method req reply opts))

/-- The local `raw` after the invoker was handed `&raw`: the slice the pointer now
points at. -/
def rawOf {Msg : Type} : GoAny Msg → GoBytes
  | .bytesPtr (some b) => b
  | _ => none

/-- The context `UnaryClientInterceptor` hands to the invoker: with an entry found,
the outgoing metadata has `If-None-Match` set to the entry's tag. -/
def dispatchCtx (ctx : Ctx) (cachedValue : Entry) (ok : Bool) : Ctx :=
  if ok = true then
    match FromOutgoingContext ctx with
    | (outMD, true) => NewOutgoingContext ctx (outMD.Set "If-None-Match" [cachedValue.ETag])
    | (_, false) => NewOutgoingContext ctx ((MD.mk []).Set "If-None-Match" [cachedValue.ETag])
  else ctx

/-- The end of `UnaryClientInterceptor`, after the switch: the returned bytes are
decoded into the reply, then the store is updated from the response headers. -/
def Interceptor.clientTail {σ Msg : Type} (c : Interceptor σ Msg) (w : World σ Msg)
    (key : String) (raw : GoBytes) (inMD : MD) (reply : GoAny Msg) :
    Run ((Option GoError × GoAny Msg) × World σ Msg) :=
  match c.codec.Unmarshal raw reply with
  | .error p => .error p
  | .ok (reply1, some err) => .ok ((some (.wrap "unmarshal response" err), reply1), w)
  | .ok (reply1, none) =>
    match inMD.Get "ETag" with
    | etag0 :: _ =>
      .ok ((none, reply1),
        { w.log (.storeSet key ⟨raw, etag0⟩) with store := c.store.Set w.store key ⟨raw, etag0⟩ })
    | [] =>
      .ok ((none, reply1),
        { w.log (.storeRemove key) with store := c.store.Remove w.store key })

/-- The function returned by `Interceptor.UnaryClientInterceptor`: the error it
returns, the caller's reply afterwards, and the world afterwards. -/
def Interceptor.UnaryClientInterceptor {σ Msg : Type} (c : Interceptor σ Msg)
    (w : World σ Msg) (ctx : Ctx) (method : String) (req reply : GoAny Msg)
    (invoker : Invoker Msg) (opts : List CallOption) :
    Run ((Option GoError × GoAny Msg) × World σ Msg) :=
  if c.filter method = false then
    .ok (((callInvoker invoker w ctx method req reply opts).1.err,
      (callInvoker invoker w ctx method req reply opts).1.reply),
      (callInvoker invoker w ctx method req reply opts).2)
  else
    match c.key method req with
    | .error p => .error p
    | .ok (_, some _) =>
      .ok (((callInvoker invoker
          (w.log (.warn "gcache: failed to produce a key, skipping cache"))
          ctx method req reply opts).1.err,
        (callInvoker invoker
          (w.log (.warn "gcache: failed to produce a key, skipping cache"))
          ctx method req reply opts).1.reply),
        (callInvoker invoker
          (w.log (.warn "gcache: failed to produce a key, skipping cache"))
          ctx method req reply opts).2)
    | .ok (key, none) =>
      match c.store.Get w.store key with
      | (cachedValue, ok) =>
        match callInvoker invoker (w.log (.storeGet key)) (dispatchCtx ctx cachedValue ok)
            method req (.bytesPtr (some none)) (opts ++ [.Header, .ForceCodec]) with
        | (o, w2) =>
          if notChanged (dispatchCtx ctx cachedValue ok) o.err o.header = true then
            match c.codec.Unmarshal cachedValue.Value reply with
            | .error p => .error p
            | .ok (reply1, some err) =>
              .ok ((some (.wrap "unmarshal cached response" err), reply1), w2)
            | .ok (reply1, none) => c.clientTail w2 key (rawOf o.reply) o.header reply1
          else
            match o.err with
            | some err => .ok ((some (.wrap "call invoker" err), reply), w2)
            | none => c.clientTail w2 key (rawOf o.reply) o.header reply

/-! ## internal/tspb and the fixtures of interceptor_test.go -/

/-- The messages of `internal/tspb`: `TestRequest{Key}` and `TestResponse{Value}`. -/
inductive TestMsg
  | TestRequest (Key : String)
  | TestResponse (Value : String)
deriving DecidableEq, Repr

/-- The wire format of a message whose only field is the string field 1: nothing
for the empty string, else the tag byte 10, the length and the bytes (strings
shorter than 128 bytes). -/
def encodeField1 (s : String) : List Nat :=
  if s.data.isEmpty then [] else 10 :: s.data.length :: s.data.map Char.toNat

/-- Reads records of field 1 until the data ends; `none` when a record is cut short
or another tag comes. -/
def decodeField1 : Nat → List Nat → List Char → Option (List Char)
  | 0, data, cur => if data.isEmpty then some cur else none
  | fuel + 1, data, cur =>
    match data with
    | [] => some cur
    | 10 :: n :: rest =>
      if n < 128 ∧ n ≤ rest.length then
        decodeField1 fuel (rest.drop n) ((rest.take n).map Char.ofNat)
      else none
    | _ => none

/-- The protobuf library on the messages of `internal/tspb`, for data made of
records of field 1 with ASCII strings shorter than 128 bytes; on other data (unknown
fields, longer or non-ASCII strings) it is not the library. -/
def tspbLib : Lib TestMsg where
  protoMarshal := fun m =>
    match m with
    | .TestRequest k => (some (encodeField1 k), none)
    | .TestResponse v => (some (encodeField1 v), none)
  protoUnmarshal := fun d m =>
    match decodeField1 d.length d [], m with
    | some cs, .TestRequest _ => (.TestRequest (String.mk cs), none)
    | some cs, .TestResponse _ => (.TestResponse (String.mk cs), none)
    | none, .TestRequest _ =>
      (.TestRequest "", some (.plain "proto: cannot parse invalid wire-format data"))
    | none, .TestResponse _ =>
      (.TestResponse "", some (.plain "proto: cannot parse invalid wire-format data"))

/-- The constant `emptyReqKey` of the tests. -/
def emptyReqKey : String :=
  "/com.github.cappuccinotm.gcache.example.TestService/Test" ++
    "\x7bda39a3ee5e6b4b0d3255bfef95601890afd80709\x7d"

/-- The method name of the tests. -/
def testMethod : String := "/com.github.cappuccinotm.gcache.example.TestService/Test"

/-- The interceptor of the tests: `NewInterceptor()` over an in-memory store. -/
def testInterceptor : Interceptor (List (String × Entry)) TestMsg :=
  NewInterceptor tspbLib (NewLRU mapBackend)

/-- A world whose store holds the given pairs and whose trace is empty. -/
def worldOf (pairs : List (String × Entry)) : World (List (String × Entry)) TestMsg :=
  ⟨pairs, [], []⟩

/-- A context without metadata, `context.Background()`. -/
def background : Ctx := ⟨none, none⟩

/-- An invoker whose server answers with `NotChanged(ctx, etag)`: status Aborted,
the header `ETag`, no payload. -/
def notChangedInvoker (etag : String) : Invoker TestMsg :=
  fun _ _ _ reply _ =>
    ⟨some (.status Code.Aborted "gcache: not changed"), reply, ⟨[("etag", [etag])]⟩⟩

/-- An invoker whose call fails with status Aborted and no header at all. -/
def bareAbortedInvoker : Invoker TestMsg :=
  fun _ _ _ reply _ => ⟨some (.status Code.Aborted "transaction aborted"), reply, ⟨[]⟩⟩

/-- An invoker whose server answers with the message `resp` and the given headers;
the payload reaches a `*[]byte` target as the encoded bytes, and a payload of no
bytes leaves the target as it was. -/
def freshInvoker (resp : TestMsg) (header : MD) : Invoker TestMsg :=
  fun _ _ _ reply _ =>
    match reply with
    | .bytesPtr (some old) =>
      if ((tspbLib.protoMarshal resp).1.getD []).isEmpty then ⟨none, .bytesPtr (some old), header⟩
      else ⟨none, .bytesPtr (some (tspbLib.protoMarshal resp).1), header⟩
    | .message _ => ⟨none, .message resp, header⟩
    | other => ⟨none, other, header⟩

/-- The service of the tests as reflection sees it: the registered server is a
`*MockTestService`, a pointer type, whose `Name()` is empty; its method `Test`
returns a `*TestResponse`. -/
def testServer : ServerDesc TestMsg where
  typeName := ""
  methodOut := fun m => if m = "Test" then some (.message (.TestResponse "")) else none

/-- The `grpc.UnaryServerInfo` of the tests. -/
def testInfo : UnaryServerInfo TestMsg := ⟨testServer, testMethod⟩

/-- A redis backend that cannot be reached: every call fails with a transport
error, and `Get` leaves the `Entry` it was handed zero. -/
def unreachableRedis : RedisBackend Unit where
  Get := fun _ _ => (⟨none, ""⟩, some ⟨false, "dial tcp 127.0.0.1:6379: connect: connection refused"⟩)
  Set := fun s _ => (s, some ⟨false, "dial tcp 127.0.0.1:6379: connect: connection refused"⟩)
  Delete := fun s _ => (s, some ⟨false, "dial tcp 127.0.0.1:6379: connect: connection refused"⟩)

/-- A redis backend that holds nothing: every `Get` is a cache miss. -/
def emptyRedis : RedisBackend Unit where
  Get := fun _ _ => (⟨none, ""⟩, some ⟨true, "cache: key is missing"⟩)
  Set := fun s _ => (s, none)
  Delete := fun s _ => (s, none)

/-- A handler that answers with the message `resp`. -/
def okHandler (resp : TestMsg) : Handler TestMsg := fun _ _ => (.message resp, none)

/-- A handler that fails with status Internal. -/
def failingHandler : Handler TestMsg :=
  fun _ _ => (.nil, some (.status Code.Internal "boom"))

/-- A handler that answers with a value the codec cannot encode. -/
def unencodableHandler : Handler TestMsg := fun _ _ => (.other "42", none)

/-- The context of a request that came with `Cache-Control: no-cache`. -/
def noCacheCtx : Ctx := ⟨some ⟨[("cache-control", ["no-cache"])]⟩, none⟩

/-- The context of a request that came with two `Cache-Control` values, `no-cache`
being the second. -/
def noCacheSecondCtx : Ctx := ⟨some ⟨[("cache-control", ["max-age=0", "no-cache"])]⟩, none⟩

/-- The context of a request that came with metadata but no directive. -/
def plainCtx : Ctx := ⟨some ⟨[]⟩, none⟩

/-- What `UnaryServerInterceptor` returns of a handler result it passes on: a nil
response with the error on failure, the response with a nil error on success. -/
def passOn {Msg : Type} (r : GoAny Msg × Option GoError) : GoAny Msg × Option GoError :=
  match r with
  | (_, some err) => (.nil, some err)
  | (resp, none) => (resp, none)

/-- Two successive calls of `UnaryServerInterceptor` with the same arguments: both
results and the world after the second. -/
def serveTwice {σ Msg : Type} (c : Interceptor σ Msg) (w : World σ Msg) (ctx : Ctx)
    (req : GoAny Msg) (info : UnaryServerInfo Msg) (handler : Handler Msg) :
    Run ((GoAny Msg × Option GoError) × (GoAny Msg × Option GoError) × World σ Msg) :=
  match c.UnaryServerInterceptor w ctx req info handler with
  | .error p => .error p
  | .ok (r1, w1) =>
    match c.UnaryServerInterceptor w1 ctx req info handler with
    | .error p => .error p
    | .ok (r2, w2) => .ok (r1, r2, w2)

/-- Whether the event is a call of the real invoker. -/
def Event.isInvoke {Msg : Type} : Event Msg → Bool
  | .invoke _ _ _ _ _ => true
  | _ => false

/-- The interceptor of the "filtered out" tests: its filter matches no method. -/
def filteredInterceptor : Interceptor (List (String × Entry)) TestMsg :=
  { testInterceptor with filter := fun _ => false }

/-- The function `errors.Unwrap`: the error a `%w` wrapper holds. -/
def GoError.Unwrap : GoError → Option GoError
  | .wrap _ inner => some inner
  | _ => none

/-- An invoker whose call fails with status Internal and no header. -/
def failingInvoker : Invoker TestMsg :=
  fun _ _ _ reply _ => ⟨some (.status Code.Internal "boom"), reply, ⟨[]⟩⟩

/-! ## Lemmas on metadata and traces -/

theorem MD.Get_ETag (md : MD) : md.Get "ETag" = md.Get "etag" := by
  unfold MD.Get
  have h : toLower "ETag" = toLower "etag" := by decide
  rw [h]

theorem MD.Get_IfNoneMatch (md : MD) : md.Get "If-None-Match" = md.Get "if-none-match" := by
  unfold MD.Get
  have h : toLower "If-None-Match" = toLower "if-none-match" := by decide
  rw [h]

theorem MD.Get_Set_IfNoneMatch (md : MD) (t : String) :
    (md.Set "If-None-Match" [t]).Get "if-none-match" = [t] := by
  have h : toLower "if-none-match" = toLower "If-None-Match" := by decide
  simp [MD.Set, MD.Get, h, List.lookup]

theorem dispatchCtx_found (ctx : Ctx) (e : Entry) :
    (FromOutgoingContext (dispatchCtx ctx e true)).1.Get "if-none-match" = [e.ETag] := by
  unfold dispatchCtx FromOutgoingContext NewOutgoingContext
  cases ctx.outgoing <;> simp [MD.Get_Set_IfNoneMatch]

theorem World.since_log {σ Msg : Type} (w : World σ Msg) (evs : List (Event Msg)) (s : σ)
    (rc : List (String × GoAny Msg)) :
    World.since ⟨s, rc, w.trace ++ evs⟩ w = evs := by
  simp [World.since]

/-- With nil data `RawBytesCodec.Unmarshal` leaves the target alone and succeeds. -/
theorem RawBytesCodec.Unmarshal_nil {Msg : Type} (L : Lib Msg) (v : GoAny Msg) :
    RawBytesCodec.Unmarshal L none v = .ok (v, none) := by
  cases v <;> rfl

/-- The answer of `notChanged` spelled out. -/
theorem notChanged_iff (ctx : Ctx) (err : Option GoError) (inMD : MD) :
    notChanged ctx err inMD = true ↔
      statusCode err = Code.Aborted ∧
        (FromOutgoingContext ctx).1.Get "If-None-Match" = inMD.Get "ETag" := by
  rw [MD.Get_ETag, MD.Get_IfNoneMatch]
  unfold notChanged
  cases err with
  | none => simp [statusCode]
  | some e =>
    by_cases h1 : statusCode (some e) = Code.Aborted
    · by_cases h2 : (FromOutgoingContext ctx).1.Get "if-none-match" = inMD.Get "etag"
      · simp [h1, h2]
      · simp [h1, h2]
    · simp [h1]

/-! ## The call-site interceptor -/

/-- The call-site interceptor after a "not changed" answer whose stored value
decodes: it returns nil with the decoding as the reply, and the world is the one
`clientTail` leaves. -/
theorem client_notChanged_run {σ Msg : Type} (c : Interceptor σ Msg) (w : World σ Msg)
    (ctx : Ctx) (method : String) (req reply : GoAny Msg) (invoker : Invoker Msg)
    (opts : List CallOption) (K : String) (e : Entry) (ok : Bool) (reply1 : GoAny Msg)
    (hf : c.filter method = true) (hk : c.key method req = .ok (K, none))
    (hget : c.store.Get w.store K = (e, ok))
    (hnc : notChanged (dispatchCtx ctx e ok)
      (invoker (dispatchCtx ctx e ok) method req (.bytesPtr (some none))
        (opts ++ [.Header, .ForceCodec])).err
      (invoker (dispatchCtx ctx e ok) method req (.bytesPtr (some none))
        (opts ++ [.Header, .ForceCodec])).header = true)
    (hdec : c.codec.Unmarshal e.Value reply = .ok (reply1, none)) :
    c.UnaryClientInterceptor w ctx method req reply invoker opts =
      c.clientTail
        ((w.log (.storeGet K)).log (.invoke (dispatchCtx ctx e ok) method req
          (.bytesPtr (some none)) (opts ++ [.Header, .ForceCodec])))
        K
        (rawOf (invoker (dispatchCtx ctx e ok) method req (.bytesPtr (some none))
          (opts ++ [.Header, .ForceCodec])).reply)
        (invoker (dispatchCtx ctx e ok) method req (.bytesPtr (some none))
          (opts ++ [.Header, .ForceCodec])).header
        reply1 := by
  unfold Interceptor.UnaryClientInterceptor
  simp [hf, hk, hget, callInvoker, hnc, hdec]

/-- C1, as amended: with the default `RawBytesCodec`, a matching method, a request
with key `K` and a store holding `Entry{v, t}` at `K`, if the invoker fails with
status Aborted, delivers no payload and its headers carry `ETag = [t]`, and if `v`
decodes into the caller's reply, then the interceptor returns nil and the reply is
that decoding; for a non-nil `*[]byte` reply and a non-nil `v` it is exactly `v`. -/
theorem client_revalidation_returns_stored {σ Msg : Type} (L : Lib Msg)
    (c : Interceptor σ Msg) (w : World σ Msg) (ctx : Ctx) (method : String)
    (req reply : GoAny Msg) (invoker : Invoker Msg) (opts : List CallOption)
    (K : String) (v : GoBytes) (t : String) (o : InvokeOutcome Msg) (reply1 : GoAny Msg)
    (hc : c.codec = RawBytesCodec L)
    (hf : c.filter method = true) (hk : c.key method req = .ok (K, none))
    (hget : c.store.Get w.store K = (⟨v, t⟩, true))
    (ho : invoker (dispatchCtx ctx ⟨v, t⟩ true) method req (.bytesPtr (some none))
      (opts ++ [.Header, .ForceCodec]) = o)
    (hab : statusCode o.err = Code.Aborted) (hraw : rawOf o.reply = none)
    (hetag : o.header.Get "ETag" = [t])
    (hdec : RawBytesCodec.Unmarshal L v reply = .ok (reply1, none)) :
    (∃ w1, c.UnaryClientInterceptor w ctx method req reply invoker opts =
        .ok ((none, reply1), w1)) ∧
      (∀ old d, reply = .bytesPtr (some old) → v = some d →
        reply1 = .bytesPtr (some (some d))) := by
  constructor
  · have hnc : notChanged (dispatchCtx ctx ⟨v, t⟩ true) o.err o.header = true := by
      rw [notChanged_iff, MD.Get_IfNoneMatch, dispatchCtx_found, hetag]
      exact ⟨hab, rfl⟩
    have hdec1 : c.codec.Unmarshal (Entry.mk v t).Value reply = .ok (reply1, none) := by
      rw [hc]; exact hdec
    rw [client_notChanged_run c w ctx method req reply invoker opts K ⟨v, t⟩ true reply1
      hf hk hget (by rw [ho]; exact hnc) hdec1]
    rw [ho, hraw]
    unfold Interceptor.clientTail
    rw [hc]
    simp only [RawBytesCodec, RawBytesCodec.Unmarshal_nil, hetag]
    exact ⟨_, rfl⟩
  · intro old d hr hv
    subst hr hv
    simp [RawBytesCodec.Unmarshal] at hdec
    exact hdec.symm

/-- C1, witness: the test "value stored, use cached one" with a `*[]byte` reply. -/
theorem client_revalidation_returns_stored_witness :
    (∃ w1, testInterceptor.UnaryClientInterceptor
        (worldOf [(emptyReqKey, ⟨some [10, 1, 97], "use-cached"⟩)]) background testMethod
        (.message (.TestRequest "")) (.bytesPtr (some none)) (notChangedInvoker "use-cached") [] =
        .ok ((none, .bytesPtr (some (some [10, 1, 97]))), w1)) ∧
      (∀ old d, (GoAny.bytesPtr (some none) : GoAny TestMsg) = .bytesPtr (some old) →
        (some [10, 1, 97] : GoBytes) = some d →
        (GoAny.bytesPtr (some (some [10, 1, 97])) : GoAny TestMsg) = .bytesPtr (some (some d))) :=
  client_revalidation_returns_stored tspbLib testInterceptor
    (worldOf [(emptyReqKey, ⟨some [10, 1, 97], "use-cached"⟩)]) background testMethod
    (.message (.TestRequest "")) (.bytesPtr (some none)) (notChangedInvoker "use-cached") []
    emptyReqKey (some [10, 1, 97]) "use-cached"
    ⟨some (.status Code.Aborted "gcache: not changed"), .bytesPtr (some none),
      ⟨[("etag", ["use-cached"])]⟩⟩
    (.bytesPtr (some (some [10, 1, 97])))
    rfl rfl rfl rfl rfl rfl rfl rfl rfl

/-- C1, counterexample: a stored value that does not decode makes the interceptor
return an error although the invoker answered "not changed" with the stored tag;
and a stored nil value leaves a `*[]byte` reply as it was, not equal to it. -/
theorem client_revalidation_counterexample :
    Except.map Prod.fst (testInterceptor.UnaryClientInterceptor
        (worldOf [(emptyReqKey, ⟨some [10, 5], "t"⟩)]) background testMethod
        (.message (.TestRequest "")) (.message (.TestResponse "")) (notChangedInvoker "t") []) =
      .ok (some (.wrap "unmarshal cached response"
        (.plain "proto: cannot parse invalid wire-format data")), .message (.TestResponse "")) ∧
    Except.map Prod.fst (testInterceptor.UnaryClientInterceptor
        (worldOf [(emptyReqKey, ⟨none, "t"⟩)]) background testMethod
        (.message (.TestRequest "")) (.bytesPtr (some (some [7]))) (notChangedInvoker "t") []) =
      .ok (none, .bytesPtr (some (some [7]))) := by
  constructor <;> rfl

/-- C2, the code at the failing input: after a "not changed" answer for a stored
`Entry{[10, 1, 97], "t"}` the interceptor calls `Set` with the empty `raw`, and
`Get` then returns `Entry{nil, "t"}`. -/
theorem client_revalidation_overwrites_entry :
    testInterceptor.UnaryClientInterceptor
        (worldOf [(emptyReqKey, ⟨some [10, 1, 97], "t"⟩)]) background testMethod
        (.message (.TestRequest "")) (.message (.TestResponse "")) (notChangedInvoker "t") [] =
      .ok ((none, .message (.TestResponse "a")),
        ⟨[(emptyReqKey, ⟨none, "t"⟩)], [],
          [.storeGet emptyReqKey,
           .invoke ⟨none, some ⟨[("if-none-match", ["t"])]⟩⟩ testMethod
             (.message (.TestRequest "")) (.bytesPtr (some none)) [.Header, .ForceCodec],
           .storeSet emptyReqKey ⟨none, "t"⟩]⟩) ∧
    testInterceptor.store.Get [(emptyReqKey, ⟨none, "t"⟩)] emptyReqKey = (⟨none, "t"⟩, true) := by
  constructor <;> rfl

/-- C3: for a matching call with key `K`, whatever the store held at `K`, if the
invoker succeeds with payload `raw` that decodes into the reply and the response
headers carry `ETag` values whose first is `t2`, then the interceptor returns nil,
the reply is the decoding of `raw`, the store had `Set(K, Entry{raw, t2})` applied,
and `Get(K)` returns exactly `Entry{raw, t2}` (in a store that returns what was set). -/
theorem client_fresh_with_marker_overwrites {σ Msg : Type} (c : Interceptor σ Msg)
    (w : World σ Msg) (ctx : Ctx) (method : String) (req reply : GoAny Msg)
    (invoker : Invoker Msg) (opts : List CallOption) (K : String) (o : InvokeOutcome Msg)
    (t2 : String) (more : List String) (reply1 : GoAny Msg)
    (hf : c.filter method = true) (hk : c.key method req = .ok (K, none))
    (ho : invoker (dispatchCtx ctx (c.store.Get w.store K).1 (c.store.Get w.store K).2)
      method req (.bytesPtr (some none)) (opts ++ [.Header, .ForceCodec]) = o)
    (hok : o.err = none) (hetag : o.header.Get "ETag" = t2 :: more)
    (hdec : c.codec.Unmarshal (rawOf o.reply) reply = .ok (reply1, none))
    (hlaw : ∀ s k e, c.store.Get (c.store.Set s k e) k = (e, true)) :
    ∃ w1, c.UnaryClientInterceptor w ctx method req reply invoker opts =
        .ok ((none, reply1), w1) ∧
      w1.store = c.store.Set w.store K ⟨rawOf o.reply, t2⟩ ∧
      c.store.Get w1.store K = (⟨rawOf o.reply, t2⟩, true) := by
  rcases hg : c.store.Get w.store K with ⟨e, ok⟩
  rw [hg] at ho
  have hnc : notChanged (dispatchCtx ctx e ok) none o.header = false := rfl
  unfold Interceptor.UnaryClientInterceptor
  simp only [hf, hk, hg, callInvoker, ho, hok, hnc]
  unfold Interceptor.clientTail
  simp only [hdec, hetag]
  exact ⟨_, rfl, rfl, hlaw _ _ _⟩

/-- C3, witness: the test "value stored, outdated". -/
theorem client_fresh_with_marker_overwrites_witness :
    ∃ w1, testInterceptor.UnaryClientInterceptor
        (worldOf [(emptyReqKey, ⟨some [10, 10, 117, 115, 101, 45, 99, 97, 99, 104, 101, 100],
          "use-cached"⟩)]) background testMethod
        (.message (.TestRequest "")) (.message (.TestResponse ""))
        (freshInvoker (.TestResponse "update") ⟨[("etag", ["update"])]⟩) [] =
        .ok ((none, .message (.TestResponse "update")), w1) ∧
      w1.store = testInterceptor.store.Set
        [(emptyReqKey, ⟨some [10, 10, 117, 115, 101, 45, 99, 97, 99, 104, 101, 100],
          "use-cached"⟩)] emptyReqKey ⟨some [10, 6, 117, 112, 100, 97, 116, 101], "update"⟩ ∧
      testInterceptor.store.Get w1.store emptyReqKey =
        (⟨some [10, 6, 117, 112, 100, 97, 116, 101], "update"⟩, true) :=
  client_fresh_with_marker_overwrites testInterceptor
    (worldOf [(emptyReqKey, ⟨some [10, 10, 117, 115, 101, 45, 99, 97, 99, 104, 101, 100],
      "use-cached"⟩)]) background testMethod
    (.message (.TestRequest "")) (.message (.TestResponse ""))
    (freshInvoker (.TestResponse "update") ⟨[("etag", ["update"])]⟩) [] emptyReqKey
    ⟨none, .bytesPtr (some (some [10, 6, 117, 112, 100, 97, 116, 101])),
      ⟨[("etag", ["update"])]⟩⟩
    "update" [] (.message (.TestResponse "update"))
    rfl rfl rfl rfl rfl rfl
    (by
      intro s k e
      simp [testInterceptor, NewInterceptor, NewLRU, mapBackend, List.lookup])

/-- The in-memory store finds nothing under a key it has removed. -/
theorem lookup_filter_ne (s : List (String × Entry)) (k : String) :
    (s.filter (fun p => p.1 ≠ k)).lookup k = none := by
  induction s with
  | nil => rfl
  | cons p rest ih =>
    obtain ⟨pk, pe⟩ := p
    rw [List.filter_cons]
    by_cases h : pk = k
    · rw [if_neg (by simpa using h)]
      exact ih
    · rw [if_pos (by simpa using h)]
      have hk : (k == pk) = false := by
        simp only [beq_eq_false_iff_ne, ne_eq]
        exact fun h1 => h h1.symm
      simp only [List.lookup, hk]
      exact ih

/-- The in-memory store returns what was set under a key. -/
theorem mapStore_get_set (s : List (String × Entry)) (k : String) (e : Entry) :
    (NewLRU mapBackend).Get ((NewLRU mapBackend).Set s k e) k = (e, true) := by
  simp [NewLRU, mapBackend, List.lookup]

/-- The in-memory store reports not found under a key that was removed. -/
theorem mapStore_get_remove (s : List (String × Entry)) (k : String) :
    ((NewLRU mapBackend).Get ((NewLRU mapBackend).Remove s k) k).2 = false := by
  simp only [NewLRU, mapBackend, lookup_filter_ne]

/-- C4: for a matching call with key `K`, whatever the store held at `K`, if the
invoker succeeds with a payload that decodes into the reply and the response headers
carry no `ETag`, then the interceptor returns nil, the reply is the decoding of the
payload, the store had `Remove(K)` applied, and `Get(K)` reports not found (in a
store that does not find what was removed). -/
theorem client_fresh_without_marker_invalidates {σ Msg : Type} (c : Interceptor σ Msg)
    (w : World σ Msg) (ctx : Ctx) (method : String) (req reply : GoAny Msg)
    (invoker : Invoker Msg) (opts : List CallOption) (K : String) (o : InvokeOutcome Msg)
    (reply1 : GoAny Msg)
    (hf : c.filter method = true) (hk : c.key method req = .ok (K, none))
    (ho : invoker (dispatchCtx ctx (c.store.Get w.store K).1 (c.store.Get w.store K).2)
      method req (.bytesPtr (some none)) (opts ++ [.Header, .ForceCodec]) = o)
    (hok : o.err = none) (hetag : o.header.Get "ETag" = [])
    (hdec : c.codec.Unmarshal (rawOf o.reply) reply = .ok (reply1, none))
    (hlaw : ∀ s k, (c.store.Get (c.store.Remove s k) k).2 = false) :
    ∃ w1, c.UnaryClientInterceptor w ctx method req reply invoker opts =
        .ok ((none, reply1), w1) ∧
      w1.store = c.store.Remove w.store K ∧
      (c.store.Get w1.store K).2 = false := by
  rcases hg : c.store.Get w.store K with ⟨e, ok⟩
  rw [hg] at ho
  have hnc : notChanged (dispatchCtx ctx e ok) none o.header = false := rfl
  unfold Interceptor.UnaryClientInterceptor
  simp only [hf, hk, hg, callInvoker, ho, hok, hnc]
  unfold Interceptor.clientTail
  simp only [hdec, hetag]
  exact ⟨_, rfl, rfl, hlaw _ _⟩

/-- C4, witness: the test "value stored, server returned no etag". -/
theorem client_fresh_without_marker_invalidates_witness :
    ∃ w1, testInterceptor.UnaryClientInterceptor
        (worldOf [(emptyReqKey, ⟨some [10, 1, 97], "use-cached"⟩)]) background testMethod
        (.message (.TestRequest "")) (.message (.TestResponse ""))
        (freshInvoker (.TestResponse "update") ⟨[]⟩) [] =
        .ok ((none, .message (.TestResponse "update")), w1) ∧
      w1.store = testInterceptor.store.Remove
        [(emptyReqKey, ⟨some [10, 1, 97], "use-cached"⟩)] emptyReqKey ∧
      (testInterceptor.store.Get w1.store emptyReqKey).2 = false :=
  client_fresh_without_marker_invalidates testInterceptor
    (worldOf [(emptyReqKey, ⟨some [10, 1, 97], "use-cached"⟩)]) background testMethod
    (.message (.TestRequest "")) (.message (.TestResponse ""))
    (freshInvoker (.TestResponse "update") ⟨[]⟩) [] emptyReqKey
    ⟨none, .bytesPtr (some (some [10, 6, 117, 112, 100, 97, 116, 101])), ⟨[]⟩⟩
    (.message (.TestResponse "update"))
    rfl rfl rfl rfl rfl rfl
    mapStore_get_remove

/-- C5, the code at the failing input: on an empty store and a context without
metadata, an invoker failing with a bare status Aborted and no header makes the
interceptor return nil with the reply unfilled, after calling `Remove`. -/
theorem client_bare_aborted_taken_as_unchanged :
    testInterceptor.UnaryClientInterceptor (worldOf []) background testMethod
        (.message (.TestRequest "")) (.message (.TestResponse "")) bareAbortedInvoker [] =
      .ok ((none, .message (.TestResponse "")),
        ⟨[], [],
          [.storeGet emptyReqKey,
           .invoke background testMethod (.message (.TestRequest ""))
             (.bytesPtr (some none)) [.Header, .ForceCodec],
           .storeRemove emptyReqKey]⟩) := by
  rfl

/-- C6: for a matching call with key `K`, if the invoker fails with status Aborted
and the inbound `ETag` values differ from the `If-None-Match` values of the outgoing
metadata of the context the call was made with, then the interceptor returns a
non-nil error (the invoker's, wrapped), the caller's reply is left as it was, and the
store receives no `Set` and no `Remove`. -/
theorem client_mismatching_marker_fails {σ Msg : Type} (c : Interceptor σ Msg)
    (w : World σ Msg) (ctx : Ctx) (method : String) (req reply : GoAny Msg)
    (invoker : Invoker Msg) (opts : List CallOption) (K : String) (o : InvokeOutcome Msg)
    (hf : c.filter method = true) (hk : c.key method req = .ok (K, none))
    (ho : invoker (dispatchCtx ctx (c.store.Get w.store K).1 (c.store.Get w.store K).2)
      method req (.bytesPtr (some none)) (opts ++ [.Header, .ForceCodec]) = o)
    (hab : statusCode o.err = Code.Aborted)
    (hne : o.header.Get "ETag" ≠
      (FromOutgoingContext
        (dispatchCtx ctx (c.store.Get w.store K).1 (c.store.Get w.store K).2)).1.Get
          "If-None-Match") :
    ∃ e w1, o.err = some e ∧
      c.UnaryClientInterceptor w ctx method req reply invoker opts =
        .ok ((some (.wrap "call invoker" e), reply), w1) ∧
      w1.store = w.store ∧
      (w1.since w).filter Event.isStoreWrite = [] := by
  rcases hg : c.store.Get w.store K with ⟨e, ok⟩
  rw [hg] at ho hne
  have hnc : notChanged (dispatchCtx ctx e ok) o.err o.header = false := by
    rw [Bool.eq_false_iff]
    intro h
    rw [notChanged_iff] at h
    exact hne h.2.symm
  cases he : o.err with
  | none => rw [he] at hab; exact absurd hab (by decide)
  | some err =>
    refine ⟨err, (w.log (.storeGet K)).log (.invoke (dispatchCtx ctx e ok) method req
      (.bytesPtr (some none)) (opts ++ [.Header, .ForceCodec])), rfl, ?_, ?_, ?_⟩
    · unfold Interceptor.UnaryClientInterceptor
      simp only [hf, hk, hg, callInvoker, ho]
      rw [hnc]
      simp only [he]
      rfl
    · rfl
    · simp [World.since, World.log, Event.isStoreWrite]

/-- C6, witness: the stored tag is "t" and the server answers Aborted with the tag
"other". -/
theorem client_mismatching_marker_fails_witness :
    ∃ e w1, (some (GoError.status Code.Aborted "gcache: not changed")) = some e ∧
      testInterceptor.UnaryClientInterceptor
        (worldOf [(emptyReqKey, ⟨some [10, 1, 97], "t"⟩)]) background testMethod
        (.message (.TestRequest "")) (.message (.TestResponse "")) (notChangedInvoker "other")
        [] = .ok ((some (.wrap "call invoker" e), .message (.TestResponse "")), w1) ∧
      w1.store = [(emptyReqKey, ⟨some [10, 1, 97], "t"⟩)] ∧
      (w1.since (worldOf [(emptyReqKey, ⟨some [10, 1, 97], "t"⟩)])).filter
        Event.isStoreWrite = [] :=
  client_mismatching_marker_fails testInterceptor
    (worldOf [(emptyReqKey, ⟨some [10, 1, 97], "t"⟩)]) background testMethod
    (.message (.TestRequest "")) (.message (.TestResponse "")) (notChangedInvoker "other") []
    emptyReqKey
    ⟨some (.status Code.Aborted "gcache: not changed"), .bytesPtr (some none),
      ⟨[("etag", ["other"])]⟩⟩
    rfl rfl rfl rfl (by decide)

/-! ## The redis store -/

/-- The answer of `redisStore.Get` when the backend fails with an error that is not
a cache miss: the entry the backend left, reported as found, and a warning. -/
theorem redisStore_Get_on_error {ρ : Type} (r : redisStore ρ) (s : ρ) (key : String)
    (e : Entry) (err : RedisErr) (hget : r.backend.Get s key = (e, some err))
    (hmiss : err.isCacheMiss = false) :
    r.Get s key = ((e, true), ["gcache: failed to get from redisStore cache"]) := by
  unfold redisStore.Get
  rw [hget]
  simp [hmiss]

/-- C7, the code at the failing input: with a backend that cannot be reached
`redisStore.Get` returns the zero `Entry` with ok = true, unlike for a cache miss,
where it returns ok = false. -/
theorem redisStore_Get_transport_error_found :
    (NewRedis ⟨unreachableRedis, 0, false⟩).Get () "k" = (⟨none, ""⟩, true) ∧
    redisStore.Get ⟨unreachableRedis, 0, false⟩ () "k" =
      ((⟨none, ""⟩, true), ["gcache: failed to get from redisStore cache"]) ∧
    (NewRedis ⟨emptyRedis, 0, false⟩).Get () "k" = (⟨none, ""⟩, false) := by
  refine ⟨rfl, rfl, rfl⟩

/-! ## The serve-site interceptor -/

/-- The events since `w` of a world that only logged one more event. -/
theorem World.since_log_one {σ Msg : Type} (w : World σ Msg) (ev : Event Msg) :
    (w.log ev).since w = [ev] := by
  simp [World.since, World.log]

/-- C10, as amended: for every request whose incoming metadata carries `Cache-Control`
with the first value exactly `no-cache`, whatever the store holds and whether or not the method
matches the filter, the interceptor calls the real handler exactly once, returns
exactly its response and error, and performs no `Get`, `Set` or `Remove`: the store
is as it was. -/
theorem server_no_cache_bypass {σ Msg : Type} (c : Interceptor σ Msg) (w : World σ Msg)
    (ctx : Ctx) (req : GoAny Msg) (info : UnaryServerInfo Msg) (handler : Handler Msg)
    (md : MD) (more : List String)
    (hin : ctx.incoming = some md) (hcc : md.Get "Cache-Control" = "no-cache" :: more) :
    ∃ w1, c.UnaryServerInterceptor w ctx req info handler = .ok (handler ctx req, w1) ∧
      w1.store = w.store ∧
      w1.since w = [.handle ctx req] ∧
      (w1.since w).filter Event.isStoreOp = [] := by
  have hnc : noCacheDirective ctx = true := by
    unfold noCacheDirective FromIncomingContext
    rw [hin]
    simp only [hcc, decide_True]
  refine ⟨w.log (.handle ctx req), ?_, rfl, World.since_log_one w _, ?_⟩
  · unfold Interceptor.UnaryServerInterceptor
    by_cases hf : c.filter info.FullMethod = false
    · rw [if_pos hf]; rfl
    · rw [if_neg hf, if_pos hnc]; rfl
  · rw [World.since_log_one]; rfl

/-- C10, witness: the test "value stored, client sent no-cache". -/
theorem server_no_cache_bypass_witness :
    ∃ w1, testInterceptor.UnaryServerInterceptor
        (worldOf [(emptyReqKey, ⟨some [10, 1, 97], ""⟩)]) noCacheCtx
        (.message (.TestRequest "")) testInfo (okHandler (.TestResponse "success")) =
        .ok (okHandler (.TestResponse "success") noCacheCtx (.message (.TestRequest "")), w1) ∧
      w1.store = [(emptyReqKey, ⟨some [10, 1, 97], ""⟩)] ∧
      w1.since (worldOf [(emptyReqKey, ⟨some [10, 1, 97], ""⟩)]) =
        [.handle noCacheCtx (.message (.TestRequest ""))] ∧
      (w1.since (worldOf [(emptyReqKey, ⟨some [10, 1, 97], ""⟩)])).filter Event.isStoreOp = [] :=
  server_no_cache_bypass testInterceptor (worldOf [(emptyReqKey, ⟨some [10, 1, 97], ""⟩)])
    noCacheCtx (.message (.TestRequest "")) testInfo (okHandler (.TestResponse "success"))
    ⟨[("cache-control", ["no-cache"])]⟩ [] rfl rfl

/-- C10, counterexample: the incoming metadata carries the `Cache-Control` values
`max-age=0` and `no-cache`; the interceptor looks at the first only, does a `Get`,
serves the stored entry and never calls the handler. -/
theorem server_no_cache_second_value_counterexample :
    (FromIncomingContext noCacheSecondCtx).1.Get "Cache-Control" = ["max-age=0", "no-cache"] ∧
    testInterceptor.UnaryServerInterceptor
        (worldOf [(emptyReqKey, ⟨some [10, 1, 97], ""⟩)]) noCacheSecondCtx
        (.message (.TestRequest "")) testInfo (okHandler (.TestResponse "success")) =
      .ok ((.message (.TestResponse "a"), none),
        ⟨[(emptyReqKey, ⟨some [10, 1, 97], ""⟩)],
          [(testMethod, .message (.TestResponse ""))],
          [.storeGet emptyReqKey]⟩) ∧
    okHandler (.TestResponse "success") noCacheSecondCtx (.message (.TestRequest "")) =
      (.message (.TestResponse "success"), none) := by
  refine ⟨rfl, rfl, rfl⟩

/-- The method `responseType` touches neither the store nor the trace. -/
theorem responseType_world {σ Msg : Type} (w : World σ Msg) (m : String) (srv : ServerDesc Msg) :
    (responseType w m srv).2.store = w.store ∧ (responseType w m srv).2.trace = w.trace := by
  unfold responseType
  cases w.responseCache.lookup m with
  | some v => exact ⟨rfl, rfl⟩
  | none =>
    cases srv.methodOut (lastSegment m) with
    | none => exact ⟨rfl, rfl⟩
    | some t => exact ⟨rfl, rfl⟩

/-- The value `responseType` returns depends on the world through `responseCache` only. -/
theorem responseType_fst {σ Msg : Type} (w w1 : World σ Msg) (m : String)
    (srv : ServerDesc Msg) (h : w1.responseCache = w.responseCache) :
    (responseType w1 m srv).1 = (responseType w m srv).1 := by
  unfold responseType
  rw [h]
  cases w.responseCache.lookup m with
  | some v => rfl
  | none =>
    cases srv.methodOut (lastSegment m) with
    | none => rfl
    | some t => rfl

/-- The serve-site interceptor on a stored entry that builds a response: it returns
the decoded value, and the world is the one `responseType` leaves after the `Get`. -/
theorem server_hit_run {σ Msg : Type} (c : Interceptor σ Msg) (w : World σ Msg) (ctx : Ctx)
    (req : GoAny Msg) (info : UnaryServerInfo Msg) (handler : Handler Msg) (K : String)
    (e : Entry) (out resp : GoAny Msg)
    (hf : c.filter info.FullMethod = true) (hnc : noCacheDirective ctx = false)
    (hk : c.key info.FullMethod req = .ok (K, none))
    (hget : c.store.Get w.store K = (e, true))
    (hrt : (responseType w info.FullMethod info.Server).1 = (out, none))
    (hdec : c.codec.Unmarshal e.Value out = .ok (resp, none)) :
    c.UnaryServerInterceptor w ctx req info handler =
      .ok ((resp, none),
        (responseType (w.log (.storeGet K)) info.FullMethod info.Server).2) := by
  have hrt1 : (responseType (w.log (.storeGet K)) info.FullMethod info.Server).1 =
      (out, none) := by
    rw [responseType_fst w (w.log (.storeGet K)) _ _ rfl]; exact hrt
  unfold Interceptor.UnaryServerInterceptor
  simp only [hf, hnc, hk, hget, Bool.true_eq_false, Bool.false_eq_true, if_false]
  unfold Interceptor.buildResponse
  rcases hr : responseType (w.log (.storeGet K)) info.FullMethod info.Server with ⟨⟨o1, e1⟩, wr⟩
  rw [hr] at hrt1
  cases hrt1
  simp only [hdec]

/-- The serve-site interceptor on a miss with a handler whose response encodes: it
returns the response and sets the entry, without a tag. -/
theorem server_miss_run {σ Msg : Type} (c : Interceptor σ Msg) (w : World σ Msg) (ctx : Ctx)
    (req : GoAny Msg) (info : UnaryServerInfo Msg) (handler : Handler Msg) (K : String)
    (resp : GoAny Msg) (bts : GoBytes)
    (hf : c.filter info.FullMethod = true) (hnc : noCacheDirective ctx = false)
    (hk : c.key info.FullMethod req = .ok (K, none))
    (hget : (c.store.Get w.store K).2 = false)
    (hh : handler ctx req = (resp, none))
    (hm : c.codec.Marshal resp = .ok (bts, none)) :
    c.UnaryServerInterceptor w ctx req info handler =
      .ok ((resp, none),
        ⟨c.store.Set w.store K ⟨bts, ""⟩, w.responseCache,
          w.trace ++ [.storeGet K] ++ [.handle ctx req] ++ [.storeSet K ⟨bts, ""⟩]⟩) := by
  rcases hg : c.store.Get w.store K with ⟨e, ok⟩
  rw [hg] at hget
  cases hget
  unfold Interceptor.UnaryServerInterceptor
  simp only [hf, hnc, hk, hg, Bool.true_eq_false, Bool.false_eq_true, if_false]
  unfold Interceptor.serverTail callHandler
  simp only [hh, hm]
  rfl

/-- The events since `w` depend on the trace only. -/
theorem World.since_of_trace {σ Msg : Type} (w1 w2 w : World σ Msg)
    (h : w1.trace = w2.trace) : w1.since w = w2.since w := by
  unfold World.since
  rw [h]

/-- C9, as amended: for a matching request without a no-cache directive and with key
`K`: (1) if the store holds an `Entry` at `K` whose value decodes into the method's
response type, the interceptor returns the decoded stored value with a nil error,
calls the handler zero times and leaves the store unchanged; (2) of two successive
identical requests on a store without an entry at `K`, if the handler succeeds on
the first with a response that encodes to bytes which decode into the response type,
only the first reaches the handler (in a store that returns what was set). -/
theorem server_hit_short_circuits {σ Msg : Type} (c : Interceptor σ Msg) (ctx : Ctx)
    (req : GoAny Msg) (info : UnaryServerInfo Msg) (K : String)
    (hf : c.filter info.FullMethod = true) (hnc : noCacheDirective ctx = false)
    (hk : c.key info.FullMethod req = .ok (K, none)) :
    (∀ (w : World σ Msg) (handler : Handler Msg) (e : Entry) (out resp : GoAny Msg),
      c.store.Get w.store K = (e, true) →
      (responseType w info.FullMethod info.Server).1 = (out, none) →
      c.codec.Unmarshal e.Value out = .ok (resp, none) →
      ∃ w1, c.UnaryServerInterceptor w ctx req info handler = .ok ((resp, none), w1) ∧
        w1.store = w.store ∧
        (w1.since w).filter Event.isHandle = [] ∧
        (w1.since w).filter Event.isStoreWrite = []) ∧
    (∀ (w : World σ Msg) (handler : Handler Msg) (resp : GoAny Msg) (bts : GoBytes)
      (out resp2 : GoAny Msg),
      (c.store.Get w.store K).2 = false →
      handler ctx req = (resp, none) →
      c.codec.Marshal resp = .ok (bts, none) →
      (responseType w info.FullMethod info.Server).1 = (out, none) →
      c.codec.Unmarshal bts out = .ok (resp2, none) →
      (∀ s k e, c.store.Get (c.store.Set s k e) k = (e, true)) →
      ∃ w2, serveTwice c w ctx req info handler = .ok ((resp, none), (resp2, none), w2) ∧
        (w2.since w).filter Event.isHandle = [.handle ctx req]) := by
  constructor
  · intro w handler e out resp hget hrt hdec
    refine ⟨_, server_hit_run c w ctx req info handler K e out resp hf hnc hk hget hrt hdec,
      ?_, ?_, ?_⟩
    · exact (responseType_world _ _ _).1
    · rw [World.since_of_trace _ (w.log (.storeGet K)) w (responseType_world _ _ _).2,
        World.since_log_one]
      rfl
    · rw [World.since_of_trace _ (w.log (.storeGet K)) w (responseType_world _ _ _).2,
        World.since_log_one]
      rfl
  · intro w handler resp bts out resp2 hget hh hm hrt hdec hlaw
    have h1 := server_miss_run c w ctx req info handler K resp bts hf hnc hk hget hh hm
    have h2 := server_hit_run c
      ⟨c.store.Set w.store K ⟨bts, ""⟩, w.responseCache,
        w.trace ++ [.storeGet K] ++ [.handle ctx req] ++ [.storeSet K ⟨bts, ""⟩]⟩
      ctx req info handler K ⟨bts, ""⟩ out resp2 hf hnc hk (hlaw _ _ _)
      ((responseType_fst w ⟨c.store.Set w.store K ⟨bts, ""⟩, w.responseCache,
        w.trace ++ [.storeGet K] ++ [.handle ctx req] ++ [.storeSet K ⟨bts, ""⟩]⟩
        _ _ rfl).trans hrt) hdec
    have h3 : serveTwice c w ctx req info handler =
        .ok ((resp, none), (resp2, none),
          (responseType
            ((World.mk (c.store.Set w.store K ⟨bts, ""⟩) w.responseCache
              (w.trace ++ [.storeGet K] ++ [.handle ctx req] ++ [.storeSet K ⟨bts, ""⟩])).log
              (.storeGet K))
            info.FullMethod info.Server).2) := by
      unfold serveTwice
      rw [h1]
      simp only [h2]
    refine ⟨_, h3, ?_⟩
    · rw [World.since_of_trace _
        ⟨c.store.Set w.store K ⟨bts, ""⟩, w.responseCache,
          w.trace ++ ([.storeGet K, .handle ctx req, .storeSet K ⟨bts, ""⟩, .storeGet K])⟩
        w (by rw [(responseType_world _ _ _).2]; simp [World.log]),
        World.since_log]
      rfl

/-- C9, witness: the tests "value stored, use cached one" and "call thrice". -/
theorem server_hit_short_circuits_witness :
    (∃ w1, testInterceptor.UnaryServerInterceptor
        (worldOf [(emptyReqKey, ⟨some [10, 1, 97], ""⟩)]) plainCtx
        (.message (.TestRequest "")) testInfo failingHandler =
          .ok ((.message (.TestResponse "a"), none), w1) ∧
        w1.store = [(emptyReqKey, ⟨some [10, 1, 97], ""⟩)] ∧
        (w1.since (worldOf [(emptyReqKey, ⟨some [10, 1, 97], ""⟩)])).filter Event.isHandle = [] ∧
        (w1.since (worldOf [(emptyReqKey, ⟨some [10, 1, 97], ""⟩)])).filter
          Event.isStoreWrite = []) ∧
    (∃ w2, serveTwice testInterceptor (worldOf []) plainCtx (.message (.TestRequest ""))
        testInfo (okHandler (.TestResponse "a")) =
          .ok ((.message (.TestResponse "a"), none), (.message (.TestResponse "a"), none), w2) ∧
        (w2.since (worldOf [])).filter Event.isHandle =
          [.handle plainCtx (.message (.TestRequest ""))]) :=
  ⟨(server_hit_short_circuits testInterceptor plainCtx (.message (.TestRequest "")) testInfo
      emptyReqKey rfl rfl rfl).1
      (worldOf [(emptyReqKey, ⟨some [10, 1, 97], ""⟩)]) failingHandler ⟨some [10, 1, 97], ""⟩
      (.message (.TestResponse "")) (.message (.TestResponse "a")) rfl rfl rfl,
   (server_hit_short_circuits testInterceptor plainCtx (.message (.TestRequest "")) testInfo
      emptyReqKey rfl rfl rfl).2
      (worldOf []) (okHandler (.TestResponse "a")) (.message (.TestResponse "a"))
      (some [10, 1, 97]) (.message (.TestResponse "")) (.message (.TestResponse "a"))
      rfl rfl rfl rfl rfl mapStore_get_set⟩

/-- C9, counterexample: on an empty store, when the handler fails on the first of
two identical requests, the second reaches the handler too. -/
theorem server_two_requests_counterexample :
    Except.map (fun r => (r.1, r.2.1, r.2.2.store, r.2.2.trace.filter Event.isHandle))
      (serveTwice testInterceptor (worldOf []) plainCtx (.message (.TestRequest ""))
        testInfo failingHandler) =
      .ok ((.nil, some (.status Code.Internal "boom")),
        (.nil, some (.status Code.Internal "boom")), [],
        [.handle plainCtx (.message (.TestRequest "")),
         .handle plainCtx (.message (.TestRequest ""))]) := by
  rfl

/-! ## Codec failures -/

/-- The end of the serve-site interceptor passes the handler's result on, whether or
not the response encodes, as long as the codec does not panic on it. -/
theorem serverTail_passes_on {σ Msg : Type} (c : Interceptor σ Msg) (w : World σ Msg)
    (ctx : Ctx) (req : GoAny Msg) (key : String) (handler : Handler Msg)
    (hm : (handler ctx req).2 = none → ∃ b, c.codec.Marshal (handler ctx req).1 = .ok b) :
    ∃ w1, c.serverTail w ctx req key handler = .ok (passOn (handler ctx req), w1) := by
  unfold Interceptor.serverTail callHandler
  rcases hh : handler ctx req with ⟨resp, err⟩
  rw [hh] at hm
  cases err with
  | some e => exact ⟨_, rfl⟩
  | none =>
    obtain ⟨⟨bts, me⟩, hb⟩ := hm rfl
    simp only at hb
    cases me with
    | some e => simp only [hb, passOn]; exact ⟨_, rfl⟩
    | none => simp only [hb, passOn]; exact ⟨_, rfl⟩

/-- C8, as amended: a failure of the cache's own encode or decode step does not make
an interceptor return an error of its own when the step is (1) deriving the key, at
the call site, or (2) at the serve site, (3) decoding a stored entry's value at the
serve site, or (4) encoding a handler result: the caller receives the outcome of the
real invoker or handler. (5) At the call site, a stored value that fails to decode
during revalidation makes the interceptor return the codec's error, wrapped as
"unmarshal cached response". -/
theorem codec_failures_fall_through {σ Msg : Type} (c : Interceptor σ Msg)
    (w : World σ Msg) (ctx : Ctx) :
    (∀ (method : String) (req reply : GoAny Msg) (invoker : Invoker Msg)
      (opts : List CallOption) (s : String) (e : GoError),
      c.key method req = .ok (s, some e) →
      ∃ w1, c.UnaryClientInterceptor w ctx method req reply invoker opts =
        .ok (((invoker ctx method req reply opts).err,
          (invoker ctx method req reply opts).reply), w1)) ∧
    (∀ (req : GoAny Msg) (info : UnaryServerInfo Msg) (handler : Handler Msg) (s : String)
      (e : GoError),
      c.key info.FullMethod req = .ok (s, some e) →
      ∃ w1, c.UnaryServerInterceptor w ctx req info handler = .ok (handler ctx req, w1)) ∧
    (∀ (req : GoAny Msg) (info : UnaryServerInfo Msg) (handler : Handler Msg) (K : String)
      (e : Entry) (out x : GoAny Msg) (err : GoError),
      c.filter info.FullMethod = true → noCacheDirective ctx = false →
      c.key info.FullMethod req = .ok (K, none) →
      c.store.Get w.store K = (e, true) →
      (responseType w info.FullMethod info.Server).1 = (out, none) →
      c.codec.Unmarshal e.Value out = .ok (x, some err) →
      ((handler ctx req).2 = none → ∃ b, c.codec.Marshal (handler ctx req).1 = .ok b) →
      ∃ w1, c.UnaryServerInterceptor w ctx req info handler =
        .ok (passOn (handler ctx req), w1)) ∧
    (∀ (req : GoAny Msg) (info : UnaryServerInfo Msg) (handler : Handler Msg) (K : String)
      (resp : GoAny Msg) (b : GoBytes) (err : GoError),
      c.filter info.FullMethod = true → noCacheDirective ctx = false →
      c.key info.FullMethod req = .ok (K, none) →
      (c.store.Get w.store K).2 = false →
      handler ctx req = (resp, none) →
      c.codec.Marshal resp = .ok (b, some err) →
      ∃ w1, c.UnaryServerInterceptor w ctx req info handler = .ok ((resp, none), w1) ∧
        w1.store = w.store) ∧
    (∀ (method : String) (req reply : GoAny Msg) (invoker : Invoker Msg)
      (opts : List CallOption) (K : String) (e : Entry) (x : GoAny Msg) (err : GoError),
      c.filter method = true →
      c.key method req = .ok (K, none) →
      c.store.Get w.store K = (e, true) →
      notChanged (dispatchCtx ctx e true)
        (invoker (dispatchCtx ctx e true) method req (.bytesPtr (some none))
          (opts ++ [.Header, .ForceCodec])).err
        (invoker (dispatchCtx ctx e true) method req (.bytesPtr (some none))
          (opts ++ [.Header, .ForceCodec])).header = true →
      c.codec.Unmarshal e.Value reply = .ok (x, some err) →
      ∃ w1, c.UnaryClientInterceptor w ctx method req reply invoker opts =
        .ok ((some (.wrap "unmarshal cached response" err), x), w1)) := by
  refine ⟨?_, ?_, ?_, ?_, ?_⟩
  · intro method req reply invoker opts s e hk
    unfold Interceptor.UnaryClientInterceptor
    by_cases hf : c.filter method = false
    · rw [if_pos hf]; exact ⟨_, rfl⟩
    · rw [if_neg hf]; simp only [hk]; exact ⟨_, rfl⟩
  · intro req info handler s e hk
    unfold Interceptor.UnaryServerInterceptor
    by_cases hf : c.filter info.FullMethod = false
    · rw [if_pos hf]; exact ⟨_, rfl⟩
    · rw [if_neg hf]
      by_cases hnc : noCacheDirective ctx = true
      · rw [if_pos hnc]; exact ⟨_, rfl⟩
      · rw [if_neg hnc]; simp only [hk]; exact ⟨_, rfl⟩
  · intro req info handler K e out x err hf hnc hk hget hrt hdec hm
    have hrt1 : (responseType (w.log (.storeGet K)) info.FullMethod info.Server).1 =
        (out, none) := (responseType_fst w (w.log (.storeGet K)) _ _ rfl).trans hrt
    unfold Interceptor.UnaryServerInterceptor
    simp only [hf, hnc, hk, hget, Bool.true_eq_false, Bool.false_eq_true, if_false]
    unfold Interceptor.buildResponse
    rcases hr : responseType (w.log (.storeGet K)) info.FullMethod info.Server with
      ⟨⟨o1, e1⟩, wr⟩
    rw [hr] at hrt1
    cases hrt1
    simp only [hdec]
    exact serverTail_passes_on c _ ctx req K handler hm
  · intro req info handler K resp b err hf hnc hk hget hh hm
    rcases hg : c.store.Get w.store K with ⟨e, ok⟩
    rw [hg] at hget
    cases hget
    unfold Interceptor.UnaryServerInterceptor
    simp only [hf, hnc, hk, hg, Bool.true_eq_false, Bool.false_eq_true, if_false]
    unfold Interceptor.serverTail callHandler
    simp only [hh, hm]
    exact ⟨_, rfl, rfl⟩
  · intro method req reply invoker opts K e x err hf hk hget hnc hdec
    unfold Interceptor.UnaryClientInterceptor
    simp only [hf, hk, hget, callInvoker, hnc, hdec, Bool.true_eq_false, if_false, if_true]
    exact ⟨_, rfl⟩

/-- C8, witness: a request the codec cannot encode at both sites, a stored value
that does not decode at the serve site, a handler result the codec cannot encode,
and a stored value that does not decode during revalidation. -/
theorem codec_failures_fall_through_witness :
    (∃ w1, testInterceptor.UnaryClientInterceptor (worldOf []) plainCtx testMethod
        (.other "42") (.message (.TestResponse ""))
        (freshInvoker (.TestResponse "fresh") ⟨[]⟩) [] =
        .ok ((none, .message (.TestResponse "fresh")), w1)) ∧
    (∃ w1, testInterceptor.UnaryServerInterceptor (worldOf []) plainCtx (.other "42")
        testInfo (okHandler (.TestResponse "fresh")) =
        .ok ((.message (.TestResponse "fresh"), none), w1)) ∧
    (∃ w1, testInterceptor.UnaryServerInterceptor
        (worldOf [(emptyReqKey, ⟨some [10, 5], ""⟩)]) plainCtx (.message (.TestRequest ""))
        testInfo (okHandler (.TestResponse "fresh")) =
        .ok ((.message (.TestResponse "fresh"), none), w1)) ∧
    (∃ w1, testInterceptor.UnaryServerInterceptor (worldOf []) plainCtx
        (.message (.TestRequest "")) testInfo unencodableHandler =
        .ok ((.other "42", none), w1) ∧ w1.store = []) ∧
    (∃ w1, testInterceptor.UnaryClientInterceptor
        (worldOf [(emptyReqKey, ⟨some [10, 5], "t"⟩)]) plainCtx testMethod
        (.message (.TestRequest "")) (.message (.TestResponse "")) (notChangedInvoker "t") [] =
        .ok ((some (.wrap "unmarshal cached response"
          (.plain "proto: cannot parse invalid wire-format data")),
          .message (.TestResponse "")), w1)) :=
  ⟨(codec_failures_fall_through testInterceptor (worldOf []) plainCtx).1 testMethod
      (.other "42") (.message (.TestResponse "")) (freshInvoker (.TestResponse "fresh") ⟨[]⟩)
      [] "" (.wrap "marshal request" (.plain
        "failed to marshal: 42 is not type of *[]byte, nor proto.Message")) rfl,
   (codec_failures_fall_through testInterceptor (worldOf []) plainCtx).2.1 (.other "42")
      testInfo (okHandler (.TestResponse "fresh")) "" (.wrap "marshal request" (.plain
        "failed to marshal: 42 is not type of *[]byte, nor proto.Message")) rfl,
   (codec_failures_fall_through testInterceptor
      (worldOf [(emptyReqKey, ⟨some [10, 5], ""⟩)]) plainCtx).2.2.1
      (.message (.TestRequest "")) testInfo (okHandler (.TestResponse "fresh")) emptyReqKey
      ⟨some [10, 5], ""⟩ (.message (.TestResponse "")) (.message (.TestResponse ""))
      (.plain "proto: cannot parse invalid wire-format data") rfl rfl rfl rfl rfl rfl
      (fun _ => ⟨_, rfl⟩),
   (codec_failures_fall_through testInterceptor (worldOf []) plainCtx).2.2.2.1
      (.message (.TestRequest "")) testInfo unencodableHandler emptyReqKey (.other "42") none
      (.plain "failed to marshal: 42 is not type of *[]byte, nor proto.Message")
      rfl rfl rfl rfl rfl rfl,
   (codec_failures_fall_through testInterceptor
      (worldOf [(emptyReqKey, ⟨some [10, 5], "t"⟩)]) plainCtx).2.2.2.2 testMethod
      (.message (.TestRequest "")) (.message (.TestResponse "")) (notChangedInvoker "t") []
      emptyReqKey ⟨some [10, 5], "t"⟩ (.message (.TestResponse ""))
      (.plain "proto: cannot parse invalid wire-format data") rfl rfl rfl rfl rfl⟩

/-- C8, counterexample: the stored value `[10, 3, 97]` does not decode, the server
answers "not changed" for the stored tag, and the interceptor returns an error of
its own, neither nil nor the invoker's. -/
theorem codec_failure_breaks_revalidation :
    Except.map Prod.fst (testInterceptor.UnaryClientInterceptor
        (worldOf [(emptyReqKey, ⟨some [10, 3, 97], "v1"⟩)]) background testMethod
        (.message (.TestRequest "")) (.message (.TestResponse "")) (notChangedInvoker "v1") []) =
      .ok (some (.wrap "unmarshal cached response"
        (.plain "proto: cannot parse invalid wire-format data")), .message (.TestResponse "")) ∧
    (notChangedInvoker "v1" ⟨none, some ⟨[("if-none-match", ["v1"])]⟩⟩ testMethod
        (.message (.TestRequest "")) (.bytesPtr (some none)) [.Header, .ForceCodec]).err =
      some (.status Code.Aborted "gcache: not changed") := by
  constructor <;> rfl

/-! ## The serve-site interceptor: misses, failures, filtered methods -/

/-- C11: for a matching request without a no-cache directive whose key `K` has no
stored entry, if the handler succeeds with response `r` and `r` encodes to bytes `b`,
then the interceptor returns `r` with a nil error, the store had `Set(K, Entry{b, ""})`
applied, and `Get(K)` returns exactly `Entry{b, ""}` (in a store that returns what was
set). -/
theorem server_miss_populates {σ Msg : Type} (c : Interceptor σ Msg) (w : World σ Msg)
    (ctx : Ctx) (req : GoAny Msg) (info : UnaryServerInfo Msg) (handler : Handler Msg)
    (K : String) (r : GoAny Msg) (b : GoBytes)
    (hf : c.filter info.FullMethod = true) (hnc : noCacheDirective ctx = false)
    (hk : c.key info.FullMethod req = .ok (K, none))
    (hget : (c.store.Get w.store K).2 = false)
    (hh : handler ctx req = (r, none))
    (hm : c.codec.Marshal r = .ok (b, none))
    (hlaw : ∀ s k e, c.store.Get (c.store.Set s k e) k = (e, true)) :
    ∃ w1, c.UnaryServerInterceptor w ctx req info handler = .ok ((r, none), w1) ∧
      w1.store = c.store.Set w.store K ⟨b, ""⟩ ∧
      c.store.Get w1.store K = (⟨b, ""⟩, true) ∧
      (w1.since w).filter Event.isHandle = [.handle ctx req] := by
  refine ⟨_, server_miss_run c w ctx req info handler K r b hf hnc hk hget hh hm, rfl,
    hlaw _ _ _, ?_⟩
  simp [World.since, Event.isHandle]

/-- C11, witness: the test "no value stored, cache new". -/
theorem server_miss_populates_witness :
    ∃ w1, testInterceptor.UnaryServerInterceptor (worldOf []) plainCtx
        (.message (.TestRequest "")) testInfo (okHandler (.TestResponse "cached")) =
        .ok ((.message (.TestResponse "cached"), none), w1) ∧
      w1.store = testInterceptor.store.Set [] emptyReqKey
        ⟨some [10, 6, 99, 97, 99, 104, 101, 100], ""⟩ ∧
      testInterceptor.store.Get w1.store emptyReqKey =
        (⟨some [10, 6, 99, 97, 99, 104, 101, 100], ""⟩, true) ∧
      (w1.since (worldOf [])).filter Event.isHandle =
        [.handle plainCtx (.message (.TestRequest ""))] :=
  server_miss_populates testInterceptor (worldOf []) plainCtx (.message (.TestRequest ""))
    testInfo (okHandler (.TestResponse "cached")) emptyReqKey
    (.message (.TestResponse "cached")) (some [10, 6, 99, 97, 99, 104, 101, 100])
    rfl rfl rfl rfl rfl rfl mapStore_get_set

/-- C12: for a method name the filter does not match, whatever the wrapped call
does, the call-site interceptor calls the real invoker exactly once with the
caller's own context, method, request, reply and options and returns exactly its
error and reply, the serve-site interceptor calls the real handler exactly once with
the caller's own context and request and returns exactly its response and error,
and neither performs a `Get`, a `Set` or a `Remove`. -/
theorem filtered_out_bypasses_cache {σ Msg : Type} (c : Interceptor σ Msg)
    (w : World σ Msg) (ctx : Ctx) :
    (∀ (method : String) (req reply : GoAny Msg) (invoker : Invoker Msg)
      (opts : List CallOption),
      c.filter method = false →
      ∃ w1, c.UnaryClientInterceptor w ctx method req reply invoker opts =
          .ok (((invoker ctx method req reply opts).err,
            (invoker ctx method req reply opts).reply), w1) ∧
        w1.store = w.store ∧
        w1.since w = [.invoke ctx method req reply opts] ∧
        (w1.since w).filter Event.isStoreOp = []) ∧
    (∀ (req : GoAny Msg) (info : UnaryServerInfo Msg) (handler : Handler Msg),
      c.filter info.FullMethod = false →
      ∃ w1, c.UnaryServerInterceptor w ctx req info handler = .ok (handler ctx req, w1) ∧
        w1.store = w.store ∧
        w1.since w = [.handle ctx req] ∧
        (w1.since w).filter Event.isStoreOp = []) := by
  constructor
  · intro method req reply invoker opts hf
    refine ⟨w.log (.invoke ctx method req reply opts), ?_, rfl, World.since_log_one w _, ?_⟩
    · unfold Interceptor.UnaryClientInterceptor
      rw [if_pos hf]
      rfl
    · rw [World.since_log_one]; rfl
  · intro req info handler hf
    refine ⟨w.log (.handle ctx req), ?_, rfl, World.since_log_one w _, ?_⟩
    · unfold Interceptor.UnaryServerInterceptor
      rw [if_pos hf]
      rfl
    · rw [World.since_log_one]; rfl

/-- C12, witness: the two tests "filtered out, must not be cached", and a filtered
call that fails. -/
theorem filtered_out_bypasses_cache_witness :
    (∃ w1, filteredInterceptor.UnaryClientInterceptor (worldOf []) background testMethod
        (.message (.TestRequest "")) (.message (.TestResponse ""))
        (freshInvoker (.TestResponse "must-not-be-cached")
          ⟨[("etag", ["must-not-be-cached"])]⟩) [] =
          .ok ((none, .message (.TestResponse "must-not-be-cached")), w1) ∧
        w1.store = [] ∧
        w1.since (worldOf []) = [.invoke background testMethod (.message (.TestRequest ""))
          (.message (.TestResponse "")) []] ∧
        (w1.since (worldOf [])).filter Event.isStoreOp = []) ∧
    (∃ w1, filteredInterceptor.UnaryServerInterceptor (worldOf []) plainCtx
        (.message (.TestRequest "")) testInfo failingHandler =
          .ok ((.nil, some (.status Code.Internal "boom")), w1) ∧
        w1.store = [] ∧
        w1.since (worldOf []) = [.handle plainCtx (.message (.TestRequest ""))] ∧
        (w1.since (worldOf [])).filter Event.isStoreOp = []) :=
  ⟨(filtered_out_bypasses_cache filteredInterceptor (worldOf []) background).1 testMethod
      (.message (.TestRequest "")) (.message (.TestResponse ""))
      (freshInvoker (.TestResponse "must-not-be-cached")
        ⟨[("etag", ["must-not-be-cached"])]⟩) [] rfl,
   (filtered_out_bypasses_cache filteredInterceptor (worldOf []) plainCtx).2
      (.message (.TestRequest "")) testInfo failingHandler rfl⟩

/-- The end of the serve-site interceptor when the handler fails: a nil response and
the handler's error, and nothing but the handler call is recorded. -/
theorem serverTail_on_failure {σ Msg : Type} (c : Interceptor σ Msg) (w : World σ Msg)
    (ctx : Ctx) (req : GoAny Msg) (key : String) (handler : Handler Msg) (r : GoAny Msg)
    (e : GoError) (hh : handler ctx req = (r, some e)) :
    c.serverTail w ctx req key handler = .ok ((.nil, some e), w.log (.handle ctx req)) := by
  unfold Interceptor.serverTail callHandler
  simp only [hh]

/-- C15: for a matching request without a no-cache directive and with key `K` that
reaches the handler because the store has no usable entry at `K` (none, or one the
response type cannot be resolved for, or one whose value does not decode), if the
handler fails with error `e`, the interceptor returns a nil response with exactly
`e`, calls the handler once, performs no `Set` and no `Remove`, and leaves the store
as it was. -/
theorem server_handler_failure_passes_through {σ Msg : Type} (c : Interceptor σ Msg)
    (w : World σ Msg) (ctx : Ctx) (req : GoAny Msg) (info : UnaryServerInfo Msg)
    (handler : Handler Msg) (K : String) (r : GoAny Msg) (e : GoError)
    (hf : c.filter info.FullMethod = true) (hnc : noCacheDirective ctx = false)
    (hk : c.key info.FullMethod req = .ok (K, none))
    (hreach : (c.store.Get w.store K).2 = false ∨
      (∃ x err, (responseType w info.FullMethod info.Server).1 = (x, some err)) ∨
      (∃ out x err, (responseType w info.FullMethod info.Server).1 = (out, none) ∧
        c.codec.Unmarshal (c.store.Get w.store K).1.Value out = .ok (x, some err)))
    (hh : handler ctx req = (r, some e)) :
    ∃ w1, c.UnaryServerInterceptor w ctx req info handler = .ok ((.nil, some e), w1) ∧
      w1.store = w.store ∧
      (w1.since w).filter Event.isStoreWrite = [] ∧
      (w1.since w).filter Event.isHandle = [.handle ctx req] := by
  rcases hg : c.store.Get w.store K with ⟨ent, ok⟩
  rw [hg] at hreach
  unfold Interceptor.UnaryServerInterceptor
  simp only [hf, hnc, hk, hg, Bool.true_eq_false, Bool.false_eq_true, if_false]
  cases ok with
  | false =>
    simp only [serverTail_on_failure c _ ctx req K handler r e hh]
    refine ⟨_, rfl, rfl, ?_, ?_⟩ <;> simp [World.since, World.log, Event.isStoreWrite,
      Event.isHandle]
  | true =>
    have hfst := responseType_fst w (w.log (.storeGet K)) info.FullMethod info.Server rfl
    have hwor := responseType_world (w.log (.storeGet K)) info.FullMethod info.Server
    simp only at hreach
    unfold Interceptor.buildResponse
    rcases hr : responseType (w.log (.storeGet K)) info.FullMethod info.Server with
      ⟨⟨o1, e1⟩, wr⟩
    rw [hr] at hfst hwor
    simp only at hfst hwor
    have htail : ∃ w1, c.serverTail
        (wr.log (.warn "gcache: failed to unmarshal response, retrieving from handler"))
        ctx req K handler = .ok ((.nil, some e), w1) ∧ w1.store = w.store ∧
        (w1.since w).filter Event.isStoreWrite = [] ∧
        (w1.since w).filter Event.isHandle = [.handle ctx req] := by
      rw [serverTail_on_failure c _ ctx req K handler r e hh]
      refine ⟨_, rfl, hwor.1, ?_, ?_⟩ <;>
        simp [World.since, World.log, hwor.2, Event.isStoreWrite, Event.isHandle]
    rcases hreach with h0 | ⟨x, err, h1⟩ | ⟨out, x, err, h1, h2⟩
    · exact absurd h0 (by decide)
    · rw [← hfst] at h1
      cases h1
      exact htail
    · rw [← hfst] at h1
      cases h1
      simp only [h2]
      exact htail

/-- C15, witness: the handler fails on an empty store. -/
theorem server_handler_failure_passes_through_witness :
    ∃ w1, testInterceptor.UnaryServerInterceptor (worldOf []) plainCtx
        (.message (.TestRequest "")) testInfo failingHandler =
        .ok ((.nil, some (.status Code.Internal "boom")), w1) ∧
      w1.store = [] ∧
      (w1.since (worldOf [])).filter Event.isStoreWrite = [] ∧
      (w1.since (worldOf [])).filter Event.isHandle =
        [.handle plainCtx (.message (.TestRequest ""))] :=
  server_handler_failure_passes_through testInterceptor (worldOf []) plainCtx
    (.message (.TestRequest "")) testInfo failingHandler emptyReqKey .nil
    (.status Code.Internal "boom") rfl rfl rfl (Or.inl rfl) rfl

/-! ## The call-site interceptor: failures and the marker sent -/

/-- A wrapper is never the error it wraps. -/
theorem GoError.wrap_ne (e : GoError) (pfx : String) : GoError.wrap pfx e ≠ e := by
  induction e generalizing pfx with
  | status code msg => intro h; cases h
  | plain msg => intro h; cases h
  | wrap p inner ih =>
    intro h
    injection h with _ h2
    exact ih p h2

/-- C14, as amended: for a matching call with key `K` whose invoker fails with an
error `e` that is not a "not changed" signal (a status other than Aborted, or
Aborted with inbound `ETag` values different from the outgoing `If-None-Match`
values), the interceptor returns `fmt.Errorf("call invoker: %w", e)`: an error that
unwraps to `e` and has the status code of `e`, but is not `e` itself, its message
being "call invoker: " followed by the message of `e`; the reply is left as it was. -/
theorem client_failure_is_wrapped {σ Msg : Type} (c : Interceptor σ Msg) (w : World σ Msg)
    (ctx : Ctx) (method : String) (req reply : GoAny Msg) (invoker : Invoker Msg)
    (opts : List CallOption) (K : String) (o : InvokeOutcome Msg) (e : GoError)
    (hf : c.filter method = true) (hk : c.key method req = .ok (K, none))
    (ho : invoker (dispatchCtx ctx (c.store.Get w.store K).1 (c.store.Get w.store K).2)
      method req (.bytesPtr (some none)) (opts ++ [.Header, .ForceCodec]) = o)
    (he : o.err = some e)
    (hnot : statusCode (some e) ≠ Code.Aborted ∨
      (FromOutgoingContext
        (dispatchCtx ctx (c.store.Get w.store K).1 (c.store.Get w.store K).2)).1.Get
          "If-None-Match" ≠ o.header.Get "ETag") :
    (∃ w1, c.UnaryClientInterceptor w ctx method req reply invoker opts =
        .ok ((some (.wrap "call invoker" e), reply), w1)) ∧
      (GoError.wrap "call invoker" e).Unwrap = some e ∧
      statusCode (some (.wrap "call invoker" e)) = statusCode (some e) ∧
      (GoError.wrap "call invoker" e).Error = "call invoker: " ++ e.Error ∧
      GoError.wrap "call invoker" e ≠ e := by
  refine ⟨?_, rfl, rfl, rfl, GoError.wrap_ne e _⟩
  rcases hg : c.store.Get w.store K with ⟨ent, ok⟩
  rw [hg] at ho hnot
  have hnc : notChanged (dispatchCtx ctx ent ok) (some e) o.header = false := by
    rw [Bool.eq_false_iff]
    intro h
    rw [notChanged_iff] at h
    rcases hnot with h1 | h2
    · exact h1 h.1
    · exact h2 h.2
  unfold Interceptor.UnaryClientInterceptor
  simp only [hf, hk, hg, callInvoker, ho, he, hnc, Bool.true_eq_false, Bool.false_eq_true,
    if_false]
  exact ⟨_, rfl⟩

/-- C14, witness: the invoker fails with status Internal. -/
theorem client_failure_is_wrapped_witness :
    (∃ w1, testInterceptor.UnaryClientInterceptor (worldOf []) background testMethod
        (.message (.TestRequest "")) (.message (.TestResponse "")) failingInvoker [] =
        .ok ((some (.wrap "call invoker" (.status Code.Internal "boom")),
          .message (.TestResponse "")), w1)) ∧
      (GoError.wrap "call invoker" (.status Code.Internal "boom")).Unwrap =
        some (.status Code.Internal "boom") ∧
      statusCode (some (.wrap "call invoker" (.status Code.Internal "boom"))) =
        statusCode (some (.status Code.Internal "boom")) ∧
      (GoError.wrap "call invoker" (.status Code.Internal "boom")).Error =
        "call invoker: " ++ (GoError.status Code.Internal "boom").Error ∧
      GoError.wrap "call invoker" (.status Code.Internal "boom") ≠
        .status Code.Internal "boom" :=
  client_failure_is_wrapped testInterceptor (worldOf []) background testMethod
    (.message (.TestRequest "")) (.message (.TestResponse "")) failingInvoker [] emptyReqKey
    ⟨some (.status Code.Internal "boom"), .bytesPtr (some none), ⟨[]⟩⟩
    (.status Code.Internal "boom") rfl rfl rfl rfl (Or.inl (by decide))

/-- C14, counterexample: the invoker fails with `status.Error(Internal, "boom")`; the
error the interceptor returns is another value with another message. -/
theorem client_failure_not_unchanged :
    Except.map (fun r => r.1.1) (testInterceptor.UnaryClientInterceptor (worldOf [])
        background testMethod (.message (.TestRequest "")) (.message (.TestResponse ""))
        failingInvoker []) =
      .ok (some (.wrap "call invoker" (.status Code.Internal "boom"))) ∧
    GoError.wrap "call invoker" (.status Code.Internal "boom") ≠
      .status Code.Internal "boom" ∧
    (GoError.wrap "call invoker" (.status Code.Internal "boom")).Error =
      "call invoker: rpc error: code = Internal desc = boom" ∧
    (GoError.status Code.Internal "boom").Error = "rpc error: code = Internal desc = boom" ∧
    (GoError.wrap "call invoker" (.status Code.Internal "boom")).Error ≠
      (GoError.status Code.Internal "boom").Error := by
  refine ⟨rfl, by decide, rfl, rfl, by decide⟩

/-- Filtering out one key leaves the lookup of every other key as it was. -/
theorem lookup_filter_other (l : List (String × List String)) (k k0 : String) (h : k ≠ k0) :
    (l.filter (fun p => p.1 ≠ k0)).lookup k = l.lookup k := by
  induction l with
  | nil => rfl
  | cons p rest ih =>
    obtain ⟨pk, pv⟩ := p
    rw [List.filter_cons]
    by_cases hp : pk = k0
    · rw [if_neg (by simpa using hp)]
      have hk : (k == pk) = false := by
        simp only [beq_eq_false_iff_ne, ne_eq]
        rw [hp]; exact h
      simp only [List.lookup, hk]
      exact ih
    · rw [if_pos (by simpa using hp)]
      cases hk : (k == pk) with
      | true => simp only [List.lookup, hk]
      | false => simp only [List.lookup, hk]; exact ih

/-- Setting `If-None-Match` leaves the values under every other key as they were. -/
theorem MD.Get_Set_other (md : MD) (t k : String)
    (h : toLower k ≠ toLower "If-None-Match") :
    (md.Set "If-None-Match" [t]).Get k = md.Get k := by
  have hk : (toLower k == toLower "If-None-Match") = false := by
    simp only [beq_eq_false_iff_ne, ne_eq]; exact h
  unfold MD.Set MD.Get
  simp only [List.length_singleton, one_ne_zero, if_false, List.lookup, hk]
  rw [lookup_filter_other _ _ _ h]

/-- The context handed to the invoker differs from the caller's in the outgoing
`If-None-Match` values only. -/
theorem dispatchCtx_other (ctx : Ctx) (e : Entry) (ok : Bool) (k : String)
    (h : toLower k ≠ toLower "If-None-Match") :
    (FromOutgoingContext (dispatchCtx ctx e ok)).1.Get k = (FromOutgoingContext ctx).1.Get k ∧
      (dispatchCtx ctx e ok).incoming = ctx.incoming := by
  unfold dispatchCtx
  cases ok with
  | false => exact ⟨rfl, rfl⟩
  | true =>
    unfold FromOutgoingContext NewOutgoingContext
    cases ctx.outgoing with
    | none => exact ⟨MD.Get_Set_other _ _ _ h, rfl⟩
    | some md => exact ⟨MD.Get_Set_other _ _ _ h, rfl⟩

/-- The end of the call-site interceptor calls no invoker. -/
theorem clientTail_trace {σ Msg : Type} (c : Interceptor σ Msg) (w w1 : World σ Msg)
    (key : String) (raw : GoBytes) (inMD : MD) (reply : GoAny Msg)
    (r : Option GoError × GoAny Msg)
    (h : c.clientTail w key raw inMD reply = .ok (r, w1)) :
    ∃ evs, w1.trace = w.trace ++ evs ∧ evs.filter Event.isInvoke = [] := by
  unfold Interceptor.clientTail at h
  split at h
  · cases h
  · cases h; exact ⟨[], by simp, rfl⟩
  · split at h
    · cases h; exact ⟨[_], rfl, rfl⟩
    · cases h; exact ⟨[_], rfl, rfl⟩

/-- On a target that is not a nil `*[]byte`, `RawBytesCodec.Unmarshal` returns, and
the target is still not a nil `*[]byte`. -/
theorem RawBytesCodec.Unmarshal_returns {Msg : Type} (L : Lib Msg) (d : GoBytes)
    (v : GoAny Msg) (hv : v ≠ .bytesPtr none) :
    ∃ v1 e, RawBytesCodec.Unmarshal L d v = .ok (v1, e) ∧ v1 ≠ .bytesPtr none := by
  cases d with
  | none => exact ⟨v, none, RawBytesCodec.Unmarshal_nil L v, hv⟩
  | some bs =>
    cases v with
    | nil => exact ⟨_, _, rfl, by intro h; cases h⟩
    | message m => exact ⟨_, _, rfl, by intro h; cases h⟩
    | bytesPtr target =>
      cases target with
      | none => exact absurd rfl hv
      | some b => exact ⟨_, _, rfl, by intro h; cases h⟩
    | other s => exact ⟨_, _, rfl, by intro h; cases h⟩

/-- With `RawBytesCodec` and a reply that is not a nil `*[]byte` the end of the
call-site interceptor returns. -/
theorem clientTail_returns {σ Msg : Type} (L : Lib Msg) (c : Interceptor σ Msg)
    (w : World σ Msg) (key : String) (raw : GoBytes) (inMD : MD) (reply : GoAny Msg)
    (hc : c.codec = RawBytesCodec L) (hr : reply ≠ .bytesPtr none) :
    ∃ r w1, c.clientTail w key raw inMD reply = .ok (r, w1) := by
  obtain ⟨v1, e, h1, _⟩ := RawBytesCodec.Unmarshal_returns L raw reply hr
  have h2 : c.codec.Unmarshal raw reply = .ok (v1, e) := by rw [hc]; exact h1
  unfold Interceptor.clientTail
  cases e with
  | some err => simp only [h2]; exact ⟨_, _, rfl⟩
  | none =>
    simp only [h2]
    cases inMD.Get "ETag" with
    | nil => exact ⟨_, _, rfl⟩
    | cons a rest => exact ⟨_, _, rfl⟩

/-- C13: for a matching call with key `K`, the invoker is called once, with the
context `dispatchCtx` makes: if the store holds `Entry{v, t}` at `K`, its outgoing
metadata has exactly `[t]` under `If-None-Match`, whatever the caller had there, every
other key and the incoming metadata are as the caller had them, and a server whose
incoming metadata is that outgoing metadata gets `t` from `ETag(ctx)`; if the store
holds no entry at `K`, it is the caller's context unchanged. With `RawBytesCodec` and
a reply that is not a nil pointer the interceptor returns. -/
theorem client_sends_stored_tag {σ Msg : Type} (c : Interceptor σ Msg) (w : World σ Msg)
    (ctx : Ctx) (method : String) (req reply : GoAny Msg) (invoker : Invoker Msg)
    (opts : List CallOption) (K : String)
    (hf : c.filter method = true) (hk : c.key method req = .ok (K, none)) :
    (∀ r w1, c.UnaryClientInterceptor w ctx method req reply invoker opts = .ok (r, w1) →
      (w1.since w).filter Event.isInvoke =
        [.invoke (dispatchCtx ctx (c.store.Get w.store K).1 (c.store.Get w.store K).2)
          method req (.bytesPtr (some none)) (opts ++ [.Header, .ForceCodec])]) ∧
    (∀ L : Lib Msg, c.codec = RawBytesCodec L → reply ≠ .bytesPtr none →
      ∃ r w1, c.UnaryClientInterceptor w ctx method req reply invoker opts = .ok (r, w1)) ∧
    (∀ v t, c.store.Get w.store K = (⟨v, t⟩, true) →
      (FromOutgoingContext (dispatchCtx ctx ⟨v, t⟩ true)).1.Get "If-None-Match" = [t] ∧
      (∀ k, toLower k ≠ toLower "If-None-Match" →
        (FromOutgoingContext (dispatchCtx ctx ⟨v, t⟩ true)).1.Get k =
          (FromOutgoingContext ctx).1.Get k) ∧
      (dispatchCtx ctx ⟨v, t⟩ true).incoming = ctx.incoming ∧
      (∀ sctx : Ctx, sctx.incoming = (dispatchCtx ctx ⟨v, t⟩ true).outgoing →
        ETag sctx = t)) ∧
    (∀ e, c.store.Get w.store K = (e, false) →
      dispatchCtx ctx (c.store.Get w.store K).1 (c.store.Get w.store K).2 = ctx) := by
  refine ⟨?_, ?_, ?_, ?_⟩
  · intro r w1 h
    rcases hg : c.store.Get w.store K with ⟨ent, ok⟩
    unfold Interceptor.UnaryClientInterceptor at h
    simp only [hf, hk, hg, callInvoker, Bool.true_eq_false, if_false] at h
    have key : ∃ evs, w1.trace = ((w.log (.storeGet K)).log
        (.invoke (dispatchCtx ctx ent ok) method req (.bytesPtr (some none))
          (opts ++ [.Header, .ForceCodec]))).trace ++ evs ∧
        evs.filter Event.isInvoke = [] := by
      split at h
      · split at h
        · cases h
        · cases h; exact ⟨[], by simp, rfl⟩
        · exact clientTail_trace c _ _ _ _ _ _ _ h
      · split at h
        · cases h; exact ⟨[], by simp, rfl⟩
        · exact clientTail_trace c _ _ _ _ _ _ _ h
    obtain ⟨evs, ht, hev⟩ := key
    simp [World.since, ht, World.log, List.filter_append, hev, Event.isInvoke]
  · intro L hc hr
    rcases hg : c.store.Get w.store K with ⟨ent, ok⟩
    unfold Interceptor.UnaryClientInterceptor
    simp only [hf, hk, hg, callInvoker, Bool.true_eq_false, if_false]
    split
    · obtain ⟨v1, e, h1, hv1⟩ := RawBytesCodec.Unmarshal_returns L ent.Value reply hr
      have h2 : c.codec.Unmarshal ent.Value reply = .ok (v1, e) := by rw [hc]; exact h1
      cases e with
      | some err => simp only [h2]; exact ⟨_, _, rfl⟩
      | none => simp only [h2]; exact clientTail_returns L c _ _ _ _ _ hc hv1
    · split
      · exact ⟨_, _, rfl⟩
      · exact clientTail_returns L c _ _ _ _ _ hc hr
  · intro v t _
    have hfound : (FromOutgoingContext (dispatchCtx ctx ⟨v, t⟩ true)).1.Get "If-None-Match" =
        [t] := by
      rw [MD.Get_IfNoneMatch]; exact dispatchCtx_found ctx ⟨v, t⟩
    refine ⟨hfound, fun k hk1 => (dispatchCtx_other ctx _ true k hk1).1,
      (dispatchCtx_other ctx ⟨v, t⟩ true "x" (by decide)).2, ?_⟩
    intro sctx hs
    unfold FromOutgoingContext at hfound
    unfold ETag FromIncomingContext
    rw [hs]
    cases ho : (dispatchCtx ctx ⟨v, t⟩ true).outgoing with
    | none =>
      rw [ho] at hfound
      exact absurd hfound (by simp [MD.Get, List.lookup])
    | some md =>
      rw [ho] at hfound
      simp only at hfound
      simp only [hfound]
  · intro e hg
    rw [hg]
    rfl

/-- C13, witness: the test "value stored, use cached one", whose server asserts
`ETag(ctx) = "use-cached"`, and a call on an empty store. -/
theorem client_sends_stored_tag_witness :
    ((World.mk [(emptyReqKey, (⟨none, "use-cached"⟩ : Entry))] []
        [Event.storeGet emptyReqKey,
         .invoke ⟨none, some ⟨[("if-none-match", ["use-cached"])]⟩⟩ testMethod
           (.message (.TestRequest "")) (.bytesPtr (some none)) [.Header, .ForceCodec],
         .storeSet emptyReqKey ⟨none, "use-cached"⟩] :
          World (List (String × Entry)) TestMsg).since
        (worldOf [(emptyReqKey, ⟨some [10, 1, 97], "use-cached"⟩)])).filter Event.isInvoke =
      [.invoke ⟨none, some ⟨[("if-none-match", ["use-cached"])]⟩⟩ testMethod
        (.message (.TestRequest "")) (.bytesPtr (some none)) [.Header, .ForceCodec]] ∧
    (∃ r w1, testInterceptor.UnaryClientInterceptor
        (worldOf [(emptyReqKey, ⟨some [10, 1, 97], "use-cached"⟩)]) background testMethod
        (.message (.TestRequest "")) (.message (.TestResponse ""))
        (notChangedInvoker "use-cached") [] = .ok (r, w1)) ∧
    ((FromOutgoingContext (dispatchCtx background ⟨some [10, 1, 97], "use-cached"⟩ true)).1.Get
        "If-None-Match" = ["use-cached"] ∧
      (∀ k, toLower k ≠ toLower "If-None-Match" →
        (FromOutgoingContext
          (dispatchCtx background ⟨some [10, 1, 97], "use-cached"⟩ true)).1.Get k =
          (FromOutgoingContext background).1.Get k) ∧
      (dispatchCtx background ⟨some [10, 1, 97], "use-cached"⟩ true).incoming =
        background.incoming ∧
      (∀ sctx : Ctx,
        sctx.incoming = (dispatchCtx background ⟨some [10, 1, 97], "use-cached"⟩ true).outgoing →
        ETag sctx = "use-cached")) ∧
    dispatchCtx background (testInterceptor.store.Get (worldOf []).store emptyReqKey).1
      (testInterceptor.store.Get (worldOf []).store emptyReqKey).2 = background :=
  ⟨(client_sends_stored_tag testInterceptor
      (worldOf [(emptyReqKey, ⟨some [10, 1, 97], "use-cached"⟩)]) background testMethod
      (.message (.TestRequest "")) (.message (.TestResponse ""))
      (notChangedInvoker "use-cached") [] emptyReqKey rfl rfl).1
      (none, .message (.TestResponse "a"))
      ⟨[(emptyReqKey, ⟨none, "use-cached"⟩)], [],
        [.storeGet emptyReqKey,
         .invoke ⟨none, some ⟨[("if-none-match", ["use-cached"])]⟩⟩ testMethod
           (.message (.TestRequest "")) (.bytesPtr (some none)) [.Header, .ForceCodec],
         .storeSet emptyReqKey ⟨none, "use-cached"⟩]⟩ rfl,
   (client_sends_stored_tag testInterceptor
      (worldOf [(emptyReqKey, ⟨some [10, 1, 97], "use-cached"⟩)]) background testMethod
      (.message (.TestRequest "")) (.message (.TestResponse ""))
      (notChangedInvoker "use-cached") [] emptyReqKey rfl rfl).2.1 tspbLib rfl
      (by intro h; cases h),
   (client_sends_stored_tag testInterceptor
      (worldOf [(emptyReqKey, ⟨some [10, 1, 97], "use-cached"⟩)]) background testMethod
      (.message (.TestRequest "")) (.message (.TestResponse ""))
      (notChangedInvoker "use-cached") [] emptyReqKey rfl rfl).2.2.1
      (some [10, 1, 97]) "use-cached" rfl,
   (client_sends_stored_tag testInterceptor (worldOf []) background testMethod
      (.message (.TestRequest "")) (.message (.TestResponse ""))
      (notChangedInvoker "use-cached") [] emptyReqKey rfl rfl).2.2.2 ⟨none, ""⟩ rfl⟩

/-! ## The codec -/

/-- On a value that is not a nil `*[]byte`, `RawBytesCodec.Marshal` returns. -/
theorem RawBytesCodec.Marshal_returns {Msg : Type} (L : Lib Msg) (v : GoAny Msg)
    (hv : v ≠ .bytesPtr none) : ∃ r, RawBytesCodec.Marshal L v = .ok r := by
  cases v with
  | nil => exact ⟨_, rfl⟩
  | message m => exact ⟨_, rfl⟩
  | bytesPtr target =>
    cases target with
    | none => exact absurd rfl hv
    | some b => exact ⟨_, rfl⟩
  | other s => exact ⟨_, rfl⟩

/-- A value of an unsupported type makes both methods return an error. -/
theorem RawBytesCodec.unsupported_is_error {Msg : Type} (L : Lib Msg) (s : String)
    (d : List Nat) :
    (∃ e, RawBytesCodec.Marshal L (.other s) = .ok (none, some e)) ∧
      (∃ e, RawBytesCodec.Unmarshal L (some d) (.other s) = .ok (.other s, some e)) :=
  ⟨⟨_, rfl⟩, ⟨_, rfl⟩⟩

/-- C16, the code at the failing input: on a nil `*[]byte` pointer `Marshal` panics,
and so does `Unmarshal` with non-nil data; on the nil interface `Marshal` returns nil
bytes and no error, and a value of an unsupported type gets an error. -/
theorem RawBytesCodec_panics_on_nil_pointer :
    RawBytesCodec.Marshal tspbLib (.bytesPtr none) = .error nilDeref ∧
    RawBytesCodec.Unmarshal tspbLib (some [1]) (.bytesPtr none) = .error nilDeref ∧
    RawBytesCodec.Marshal tspbLib .nil = .ok (none, none) ∧
    RawBytesCodec.Marshal tspbLib (.other "42") =
      .ok (none, some (.plain
        "failed to marshal: 42 is not type of *[]byte, nor proto.Message")) ∧
    RawBytesCodec.Unmarshal tspbLib (some [1]) (.other "42") =
      .ok (.other "42", some (.plain
        "failed to unmarshal: 42 is not type of *[]byte, nor proto.Message")) := by
  refine ⟨rfl, rfl, rfl, rfl, rfl⟩

/-! ## Cache keys -/

/-- The digest of "abc" (FIPS 180, one block). -/
theorem SHA1.sum_abc :
    String.mk (hex (SHA1.sum [97, 98, 99])) = "a9993e364706816aba3e25717850c26c9cd0d89d" := by
  decide

/-- The digest of the 56-byte message of FIPS 180 (two blocks). -/
theorem SHA1.sum_two_blocks :
    String.mk (hex (SHA1.sum
      ("abcdbcdecdefdefgefghfghighijhijkijkljklmklmnlmnomnopnopq".data.map Char.toNat))) =
      "84983e441c3bd26ebaae4aa1f95129e5e54670f1" := by
  decide

theorem SHA1.toBE_length (width n : Nat) : (SHA1.toBE width n).length = width := by
  simp [SHA1.toBE]

theorem SHA1.toBE_lt (width n : Nat) : ∀ b ∈ SHA1.toBE width n, b < 256 := by
  intro b hb
  simp only [SHA1.toBE, List.mem_map] at hb
  obtain ⟨i, _, rfl⟩ := hb
  exact Nat.mod_lt _ (by decide)

/-- A digest has 20 bytes. -/
theorem SHA1.sum_length (msg : List Nat) : (SHA1.sum msg).length = 20 := by
  simp [SHA1.sum, SHA1.toBE_length]

/-- The bytes of a digest are bytes. -/
theorem SHA1.sum_lt (msg : List Nat) : ∀ b ∈ SHA1.sum msg, b < 256 := by
  intro b hb
  simp only [SHA1.sum, List.mem_append] at hb
  rcases hb with (((h | h) | h) | h) | h <;> exact SHA1.toBE_lt _ _ b h

theorem hex_length (l : List Nat) : (hex l).length = 2 * l.length := by
  induction l with
  | nil => rfl
  | cons b bs ih => simp [hex, ih]; omega

theorem hexDigit_injective : ∀ a < 16, ∀ b < 16, hexDigit a = hexDigit b → a = b := by
  decide

theorem hexDigit_mem : ∀ a < 16, hexDigit a ∈ "0123456789abcdef".data := by
  decide

/-- Every character of the `%x` rendering is a lower-case hexadecimal digit. -/
theorem hex_mem (l : List Nat) : ∀ ch ∈ hex l, ch ∈ "0123456789abcdef".data := by
  induction l with
  | nil => intro ch h; cases h
  | cons b bs ih =>
    intro ch h
    simp only [hex, List.mem_cons] at h
    rcases h with h | h | h
    · rw [h]; exact hexDigit_mem _ (Nat.mod_lt _ (by decide))
    · rw [h]; exact hexDigit_mem _ (Nat.mod_lt _ (by decide))
    · exact ih ch h

/-- The `%x` rendering tells byte strings apart. -/
theorem hex_injective (l1 l2 : List Nat) (h1 : ∀ b ∈ l1, b < 256) (h2 : ∀ b ∈ l2, b < 256)
    (h : hex l1 = hex l2) : l1 = l2 := by
  induction l1 generalizing l2 with
  | nil =>
    cases l2 with
    | nil => rfl
    | cons b bs => simp [hex] at h
  | cons a as ih =>
    cases l2 with
    | nil => simp [hex] at h
    | cons b bs =>
      simp only [hex, List.cons.injEq] at h
      obtain ⟨hhi, hlo, hrest⟩ := h
      have ha := h1 a (List.mem_cons_self _ _)
      have hb := h2 b (List.mem_cons_self _ _)
      have e1 := hexDigit_injective _ (Nat.mod_lt _ (by decide)) _ (Nat.mod_lt _ (by decide)) hhi
      have e2 := hexDigit_injective _ (Nat.mod_lt _ (by decide)) _ (Nat.mod_lt _ (by decide)) hlo
      have hab : a = b := by omega
      rw [hab, ih bs (fun x hx => h1 x (List.mem_cons_of_mem _ hx))
        (fun x hx => h2 x (List.mem_cons_of_mem _ hx)) hrest]

/-- The key `Interceptor.key` returns for a request that encodes. -/
theorem Interceptor.key_of_encoding {σ Msg : Type} (c : Interceptor σ Msg) (m : String)
    (req : GoAny Msg) (b : GoBytes) (h : c.codec.Marshal req = .ok (b, none)) :
    c.key m req = .ok (m ++ "\x7b" ++ String.mk (hex (hash b)) ++ "\x7d", none) := by
  unfold Interceptor.key
  simp only [h]

/-- Two keys of the shape `m{h}` with renderings `h` of equal length agree only if
the methods and the renderings agree. -/
theorem key_string_injective (m1 m2 : String) (h1 h2 : List Char)
    (hlen : h1.length = h2.length)
    (h : m1 ++ "\x7b" ++ String.mk h1 ++ "\x7d" = m2 ++ "\x7b" ++ String.mk h2 ++ "\x7d") :
    m1 = m2 ∧ h1 = h2 := by
  have hd := congrArg String.data h
  simp only [String.data_append] at hd
  have hd1 : m1.data ++ ('\x7b' :: (h1 ++ ['\x7d'])) = m2.data ++ ('\x7b' :: (h2 ++ ['\x7d'])) := by
    simpa using hd
  have hl : ('\x7b' :: (h1 ++ ['\x7d'])).length = ('\x7b' :: (h2 ++ ['\x7d'])).length := by
    simp [hlen]
  obtain ⟨ha, hb⟩ := List.append_inj' hd1 hl
  refine ⟨String.ext ha, ?_⟩
  simp only [List.cons.injEq, true_and] at hb
  exact List.append_cancel_right hb

/-- C17: for all method names `m1`, `m2`, whatever characters they contain, and all
requests with encodings `b1`, `b2`: if the keys are equal then `m1 = m2` and the SHA-1
digests of `b1` and `b2` are equal; and equal methods with equal encoded bytes give
equal keys. -/
theorem key_collision_free {σ Msg : Type} (c : Interceptor σ Msg) (m1 m2 : String)
    (req1 req2 : GoAny Msg) (b1 b2 : GoBytes)
    (h1 : c.codec.Marshal req1 = .ok (b1, none))
    (h2 : c.codec.Marshal req2 = .ok (b2, none)) :
    (c.key m1 req1 = c.key m2 req2 → m1 = m2 ∧ hash b1 = hash b2) ∧
      (m1 = m2 → b1.getD [] = b2.getD [] → c.key m1 req1 = c.key m2 req2) := by
  rw [Interceptor.key_of_encoding c m1 req1 b1 h1, Interceptor.key_of_encoding c m2 req2 b2 h2]
  constructor
  · intro h
    have hs : m1 ++ "\x7b" ++ String.mk (hex (hash b1)) ++ "\x7d" =
        m2 ++ "\x7b" ++ String.mk (hex (hash b2)) ++ "\x7d" := by
      injection h with h
      exact congrArg Prod.fst h
    have hlen : (hex (hash b1)).length = (hex (hash b2)).length := by
      rw [hex_length, hex_length]
      unfold hash
      rw [SHA1.sum_length, SHA1.sum_length]
    obtain ⟨hm, hh⟩ := key_string_injective m1 m2 _ _ hlen hs
    exact ⟨hm, hex_injective _ _ (SHA1.sum_lt _) (SHA1.sum_lt _) hh⟩
  · intro hm hb
    unfold hash
    rw [hm, hb]

/-- C17, witness: the empty `TestRequest` and the nil request under the method of the
tests both encode to no bytes and get the same key. -/
theorem key_collision_free_witness :
    (testMethod = testMethod ∧ hash (some []) = hash none) ∧
      testInterceptor.key testMethod (.message (.TestRequest "")) =
        testInterceptor.key testMethod .nil :=
  ⟨(key_collision_free testInterceptor testMethod testMethod (.message (.TestRequest ""))
      .nil (some []) none rfl rfl).1 rfl,
   (key_collision_free testInterceptor testMethod testMethod (.message (.TestRequest ""))
      .nil (some []) none rfl rfl).2 rfl rfl⟩

/-- C18: for a method name `m` and a request the codec encodes to bytes `b`, the key
is `m`, then "{", then the rendering of the SHA-1 digest of `b` as 40 lower-case
hexadecimal digits, then "}"; for a request that encodes to zero bytes it is `m`
followed by "{da39a3ee5e6b4b0d3255bfef95601890afd80709}". -/
theorem key_format {σ Msg : Type} (c : Interceptor σ Msg) (m : String) (req : GoAny Msg)
    (b : GoBytes) (h : c.codec.Marshal req = .ok (b, none)) :
    c.key m req =
        .ok (m ++ "\x7b" ++ String.mk (hex (SHA1.sum (b.getD []))) ++ "\x7d", none) ∧
      (hex (SHA1.sum (b.getD []))).length = 40 ∧
      (∀ ch ∈ hex (SHA1.sum (b.getD [])), ch ∈ "0123456789abcdef".data) ∧
      (b.getD [] = [] →
        c.key m req = .ok (m ++ "\x7bda39a3ee5e6b4b0d3255bfef95601890afd80709\x7d", none)) := by
  refine ⟨Interceptor.key_of_encoding c m req b h, ?_, hex_mem _, ?_⟩
  · rw [hex_length, SHA1.sum_length]
  · intro hb
    rw [Interceptor.key_of_encoding c m req b h]
    unfold hash
    rw [hb]
    have hd : String.mk (hex (SHA1.sum [])) = "da39a3ee5e6b4b0d3255bfef95601890afd80709" := by
      decide
    rw [hd, String.append_assoc, String.append_assoc]
    rfl

/-- C18, witness: the empty `TestRequest` of the tests and the constant `emptyReqKey`. -/
theorem key_format_witness :
    testInterceptor.key testMethod (.message (.TestRequest "")) =
        .ok (testMethod ++ "\x7b" ++
          String.mk (hex (SHA1.sum ((some [] : GoBytes).getD []))) ++ "\x7d", none) ∧
      (hex (SHA1.sum ((some [] : GoBytes).getD []))).length = 40 ∧
      (∀ ch ∈ hex (SHA1.sum ((some [] : GoBytes).getD [])), ch ∈ "0123456789abcdef".data) ∧
      testInterceptor.key testMethod (.message (.TestRequest "")) =
        .ok (testMethod ++ "\x7bda39a3ee5e6b4b0d3255bfef95601890afd80709\x7d", none) ∧
      testMethod ++ "\x7bda39a3ee5e6b4b0d3255bfef95601890afd80709\x7d" = emptyReqKey :=
  ⟨(key_format testInterceptor testMethod (.message (.TestRequest "")) (some []) rfl).1,
   (key_format testInterceptor testMethod (.message (.TestRequest "")) (some []) rfl).2.1,
   (key_format testInterceptor testMethod (.message (.TestRequest "")) (some []) rfl).2.2.1,
   (key_format testInterceptor testMethod (.message (.TestRequest "")) (some []) rfl).2.2.2 rfl,
   rfl⟩

end Gcache
